import Mathlib

/-!
# UnityChat backend: message and moderation handlers

A shallow embedding of the request handlers of `unitychat-main/backend/app.js`
that deal with messages, bans, mutes, reactions and admin commands.  The
relational store is a record of row lists in table order; every handler maps a
store, the time of the request and the request data to a response and the next
store.  Times are integers (milliseconds), ids are integers.
-/

namespace QRCodeGenerator

/-! ## The phone field of the QR generator (`bune/script.js`) -/

/-- The prefix step of `formatPhoneNumber` on the digits of the field: the
`if / else if` chain on `startsWith`. -/
def countryPrefix (value : List Char) : List Char :=
  match value with
  | '9' :: '0' :: _ => '+' :: value
  | '0' :: rest => ['+', '9', '0'] ++ rest
  | '+' :: _ => value
  | _ => ['+', '9', '0'] ++ value

/-- A match of the pattern `(\+90)(\d{3})(\d{3})(\d{2})(\d{2})` at the head of
the characters: the replacement `$1 $2 $3 $4 $5` followed by what is left. -/
def groupAtHead (cs : List Char) : Option (List Char) :=
  match cs with
  | '+' :: '9' :: '0' :: d =>
    if (d.take 10).length = 10 ∧ (d.take 10).all Char.isDigit then
      some (['+', '9', '0', ' '] ++ d.take 3 ++ [' '] ++ (d.drop 3).take 3 ++ [' ']
        ++ (d.drop 6).take 2 ++ [' '] ++ (d.drop 8).take 2 ++ d.drop 10)
    else none
  | _ => none

/-- The non-global `replace` of `formatPhoneNumber`: the first match is
replaced, the rest of the string is kept. -/
def groupDigits : List Char → List Char
  | [] => []
  | c :: cs =>
    match groupAtHead (c :: cs) with
    | some replaced => replaced
    | none => c :: groupDigits cs

/-- The field value `formatPhoneNumber` writes back, as characters. -/
def formatPhoneChars (value : List Char) : List Char :=
  groupDigits (countryPrefix (value.filter Char.isDigit))

/-- The field value after `formatPhoneNumber(input)`, from the value before. -/
def formatPhoneNumber (value : String) : String :=
  String.mk (formatPhoneChars value.toList)

end QRCodeGenerator

namespace UnityChat

/-! ## Rows -/

/-- Row of the `Users` table. -/
structure User where
  id : Int
  username : String
  password : String
  email : Option String
  display_name : Option String
  avatar_url : Option String
  is_admin : Bool
  level : Int
  experience : Int
  next_level_xp : Int
  is_online : Bool
  last_seen : Option Int
deriving DecidableEq

/-- One entry of the JSON array kept in `Messages.reactions`. -/
structure Reaction where
  userId : Int
  reaction : String
deriving DecidableEq

/-- Row of the `Messages` table. -/
structure Message where
  id : Int
  user_id : Int
  message : Option String
  message_type : String
  created_at : Int
  is_deleted : Bool
  is_edited : Bool
  edited_at : Option Int
  reactions : Option (List Reaction)
  quoted_text : Option String
  quoted_message_id : Option Int
deriving DecidableEq

/-- Row of the `UserBans` table. -/
structure UserBan where
  user_id : Int
  banned_by : Int
  reason : Option String
  ban_date : Int
  is_active : Bool
  unban_date : Option Int
deriving DecidableEq

/-- Row of the `UserMutes` table.  `user_id` is `none` when `/mute` named a
user that does not exist (the batch inserts the NULL it selected). -/
structure UserMute where
  user_id : Option Int
  muted_by : Int
  duration_minutes : Int
  mute_time : Int
  unmute_time : Int
  is_active : Bool
deriving DecidableEq

/-- The tables the message and moderation handlers read and write, each in
table order, with the identity counter of `Messages`. -/
structure Store where
  users : List User
  messages : List Message
  bans : List UserBan
  mutes : List UserMute
  nextMessageId : Int
deriving DecidableEq

/-- The verified claims of the bearer token (`req.user`). -/
structure Claims where
  id : Int
  username : String
  display_name : Option String
  is_admin : Bool
deriving DecidableEq

/-! ## Responses -/

/-- A message row joined with the author columns selected by `GET /api/messages`. -/
structure MessageRow where
  m : Message
  username : String
  display_name : Option String
  avatar_url : Option String
  is_admin : Bool
  user_level : Int
  experience : Int
  next_level_xp : Int
deriving DecidableEq

/-- The `level, experience, next_level_xp` projection of a user. -/
structure UserStats where
  level : Int
  experience : Int
  next_level_xp : Int
deriving DecidableEq

/-- JSON payload of a response. -/
inductive Body where
  | error (error : String)
  | banned (error : String) (banInfo : UserBan)
  | muted (error : String) (muteInfo : UserMute)
  | message (message : String)
  | rows (recordset : List MessageRow)
  | posted (message : Option MessageRow) (userStats : Option UserStats)
  | reacted (reactions : List Reaction)
  | quoted (messageId : Int)
  | registered (user : Claims)
deriving DecidableEq

/-- HTTP status and payload. -/
structure Response where
  status : Nat
  body : Body
deriving DecidableEq

/-! ## JavaScript and SQL primitives -/

/-- JavaScript truthiness of a string field that may be missing. -/
def truthy : Option String → Bool
  | none => false
  | some s => !(s == "")

/-- The `length` of a JavaScript string: UTF-16 code units. -/
def jsLength (s : String) : Nat :=
  (s.toList.map (fun c => if c.toNat < 65536 then 1 else 2)).sum

/-- A value interpolated in a template literal. -/
def jsStr : Option String → String
  | none => "undefined"
  | some s => s

/-- The value of `Math.ceil(a / b)` for integers `a` and positive `b`. -/
def ceilDiv (a b : Int) : Int := -((-a) / b)

/-- T-SQL `+` on strings: NULL when either side is NULL. -/
def sqlConcat (a b : Option String) : Option String :=
  match a, b with
  | some x, some y => some (x ++ y)
  | _, _ => none

/-- The rows of `ORDER BY key ASC`, ties kept in table order. -/
def orderByAsc {α : Type} (key : α → Int) (rows : List α) : List α :=
  rows.insertionSort (fun a b => key a ≤ key b)

/-- The rows of `ORDER BY key DESC`, ties kept in table order. -/
def orderByDesc {α : Type} (key : α → Int) (rows : List α) : List α :=
  rows.insertionSort (fun a b => key b ≤ key a)

/-- The result of `SELECT @userId = id FROM Users WHERE username = @username`:
NULL when no row matches (or the parameter is NULL), else the id of the last
matching row.  Names are compared as exact strings. -/
def resolveUser (s : Store) : Option String → Option Int
  | none => none
  | some name => ((s.users.filter (fun u => u.username == name)).map (fun u => u.id)).getLast?

/-- Digit value of a character in the given radix. -/
def digitVal (radix : Nat) (c : Char) : Option Nat :=
  let v : Option Nat :=
    if c.isDigit then some (c.toNat - 48)
    else if c.isLower then some (c.toNat - 87)
    else if c.isUpper then some (c.toNat - 55)
    else none
  v.filter (fun d => d < radix)

/-- Value of the longest digit run at the head of `cs`; `none` when it is empty. -/
def digitRun (radix : Nat) (cs : List Char) : Option Nat :=
  match (cs.map (digitVal radix)).takeWhile Option.isSome with
  | [] => none
  | ds => some (ds.foldl (fun acc d => acc * radix + d.getD 0) 0)

/-- The characters JavaScript strips before a number (`StrWhiteSpaceChar`):
tab, line feed, vertical tab, form feed, carriage return, space, no-break
space, the other space separators of Unicode, the line and paragraph
separators and the byte order mark. -/
def isStrWhiteSpace (c : Char) : Bool :=
  c.toNat == 0x0009 || c.toNat == 0x000A || c.toNat == 0x000B || c.toNat == 0x000C
    || c.toNat == 0x000D || c.toNat == 0x0020 || c.toNat == 0x00A0 || c.toNat == 0x1680
    || (decide (0x2000 ≤ c.toNat) && decide (c.toNat ≤ 0x200A))
    || c.toNat == 0x2028 || c.toNat == 0x2029 || c.toNat == 0x202F || c.toNat == 0x205F
    || c.toNat == 0x3000 || c.toNat == 0xFEFF

/-- JavaScript `parseInt` without a radix, on the string form of its argument
(a missing argument has no digits); `none` is NaN. -/
def parseInt : Option String → Option Int
  | none => none
  | some str =>
    let cs := str.toList.dropWhile isStrWhiteSpace
    let neg := cs.head? == some '-'
    let cs := if cs.head? == some '-' || cs.head? == some '+' then cs.tail else cs
    let mag :=
      if cs.take 2 == ['0', 'x'] || cs.take 2 == ['0', 'X'] then digitRun 16 (cs.drop 2)
      else digitRun 10 cs
    mag.map (fun n => if neg then -(n : Int) else (n : Int))

/-! ## Table defaults -/

/-- Modelled from the spec: the column defaults of `Messages`, whose table
declaration is not part of the sources.  A new row is not deleted, not edited,
carries no reactions and is stamped with the time of the insert; its id is the
next identity value. -/
def newMessage (id now user_id : Int) (message : Option String) (message_type : String)
    (quoted_text : Option String) (quoted_message_id : Option Int) : Message :=
  { id := id, user_id := user_id, message := message, message_type := message_type,
    created_at := now, is_deleted := false, is_edited := false, edited_at := none,
    reactions := none, quoted_text := quoted_text, quoted_message_id := quoted_message_id }

/-- Modelled from the spec: the column defaults of `UserBans`, whose table
declaration is not part of the sources.  A new ban is active, dated with the
time of the insert and not revoked. -/
def newBan (now user_id banned_by : Int) (reason : Option String) : UserBan :=
  { user_id := user_id, banned_by := banned_by, reason := reason, ban_date := now,
    is_active := true, unban_date := none }

/-- Modelled from the spec: the column defaults of `UserMutes`, whose table
declaration is not part of the sources.  A new mute is active and dated with
the time of the insert. -/
def newMute (now : Int) (user_id : Option Int) (muted_by duration unmute_time : Int) : UserMute :=
  { user_id := user_id, muted_by := muted_by, duration_minutes := duration, mute_time := now,
    unmute_time := unmute_time, is_active := true }

/-- The statement `INSERT INTO Messages (user_id, message, message_type) VALUES (...)`. -/
def Store.insertMessage (s : Store) (now user_id : Int) (message : Option String)
    (message_type : String) : Store :=
  { s with
    messages := s.messages ++ [newMessage s.nextMessageId now user_id message message_type none none],
    nextMessageId := s.nextMessageId + 1 }

/-- The join `Messages m JOIN Users u ON m.user_id = u.id` over the given message rows. -/
def joinUsers (users : List User) (ms : List Message) : List MessageRow :=
  ms.flatMap (fun m => (users.filter (fun u => u.id == m.user_id)).map (fun u =>
    { m := m, username := u.username, display_name := u.display_name, avatar_url := u.avatar_url,
      is_admin := u.is_admin, user_level := u.level, experience := u.experience,
      next_level_xp := u.next_level_xp }))

/-! ## GET /api/messages -/

/-- Handler of `GET /api/messages`: `SELECT TOP 100 ... WHERE m.is_deleted = 0
ORDER BY m.created_at ASC`. -/
def getMessages (s : Store) : Response × Store :=
  let recordset :=
    (orderByAsc (fun r => r.m.created_at)
      (joinUsers s.users (s.messages.filter (fun m => !m.is_deleted)))).take 100
  (⟨200, .rows recordset⟩, s)

/-- The rows answered by `GET /api/messages`. -/
def listing (s : Store) : List MessageRow :=
  match (getMessages s).1.body with
  | .rows recordset => recordset
  | _ => []

/-! ## POST /api/messages -/

/-- Body of `POST /api/messages`; each field is a string or missing. -/
structure PostBody where
  message : Option String
  message_type : Option String
deriving DecidableEq

/-- The ban query of the post handler: `SELECT TOP 1 * FROM UserBans WHERE
user_id = @user_id AND is_active = 1 ORDER BY ban_date DESC`. -/
def banCheck (s : Store) (user_id : Int) : Option UserBan :=
  (orderByDesc (fun b => b.ban_date)
    (s.bans.filter (fun b => b.user_id == user_id && b.is_active))).head?

/-- The mute query of the post handler: `SELECT TOP 1 * FROM UserMutes WHERE
user_id = @user_id AND is_active = 1 AND GETDATE() < unmute_time ORDER BY mute_time DESC`. -/
def muteCheck (s : Store) (now user_id : Int) : Option UserMute :=
  (orderByDesc (fun m => m.mute_time)
    (s.mutes.filter (fun m => m.user_id == some user_id && m.is_active
      && decide (now < m.unmute_time)))).head?

/-- Handler of `POST /api/messages`.  The stored procedure `UpdateUserExperience`
is not part of the sources and is the parameter `xp` (user id, message length,
the `Users` table before, the `Users` table after). -/
def postMessage (xp : Int → Nat → List User → List User) (s : Store) (now : Int)
    (user : Claims) (body : PostBody) : Response × Store :=
  match banCheck s user.id with
  | some banInfo =>
    (⟨403, .banned "Hesabınız engellendiği için mesaj gönderemezsiniz." banInfo⟩, s)
  | none =>
    match muteCheck s now user.id with
    | some muteInfo =>
      let remainingTime := muteInfo.unmute_time - now
      let remainingMinutes := ceilDiv remainingTime 60000
      (⟨403, .muted ("Hesabınız " ++ toString remainingMinutes ++ " dakika boyunca susturuldu.")
        muteInfo⟩, s)
    | none =>
      if !truthy body.message then (⟨400, .error "Mesaj gerekli"⟩, s)
      else
        let message_type := body.message_type.getD "text"
        let messageId := s.nextMessageId
        let s1 := s.insertMessage now user.id body.message message_type
        let result := joinUsers s1.users (s1.messages.filter (fun m => m.id == messageId))
        let messageLength := jsLength (body.message.getD "")
        let s2 : Store := { s1 with users := xp user.id messageLength s1.users }
        let userStats := (s2.users.filter (fun u => u.id == user.id)).map
          (fun u => UserStats.mk u.level u.experience u.next_level_xp)
        (⟨201, .posted result.head? userStats.head?⟩, s2)

/-! ## POST /api/admin/command -/

/-- The `params` object of an admin command. -/
structure CommandParams where
  username : Option String := none
  reason : Option String := none
  duration : Option String := none
  messageId : Option Int := none
  newText : Option String := none
  message : Option String := none
deriving DecidableEq

/-- Body of `POST /api/admin/command`. -/
structure CommandBody where
  command : Option String
  params : Option CommandParams
deriving DecidableEq

/-- The 500 answer of the catch block of the command handler for an error
with message `msg`. -/
def commandError (msg : String) : Response :=
  ⟨500, .error (if msg = "Kullanıcı bulunamadı" then "Kullanıcı bulunamadı"
    else "Komut işlenirken hata oluştu")⟩

/-- The batch of `case '/ban'`. -/
def banCommand (s : Store) (now : Int) (user : Claims) (params : CommandParams) :
    Response × Store :=
  match resolveUser s params.username with
  | none => (commandError "Kullanıcı bulunamadı", s)
  | some userId =>
    let s1 : Store := { s with bans := s.bans ++ [newBan now userId user.id params.reason] }
    let s2 : Store := { s1 with users := s1.users.map (fun (u : User) =>
      if u.id = userId then { u with is_online := false } else u) }
    let s3 : Store := { s2 with messages := s2.messages.map (fun (m : Message) =>
      if m.user_id = userId then { m with message := some "User Banned!" } else m) }
    let text := sqlConcat (sqlConcat (sqlConcat (some "!System: ") params.username)
      (some " banlandı! Sebep: ")) params.reason
    let s4 := s3.insertMessage now user.id text "system"
    (⟨200, .message (jsStr params.username ++ " banlandı")⟩, s4)

/-- The batch of `case '/unban'`. -/
def unbanCommand (s : Store) (now : Int) (user : Claims) (params : CommandParams) :
    Response × Store :=
  match resolveUser s params.username with
  | none => (commandError "Kullanıcı bulunamadı", s)
  | some userId =>
    if !(s.bans.any (fun b => b.user_id == userId && b.is_active)) then
      (commandError "Kullanıcı zaten banlı değil", s)
    else
      let s1 : Store := { s with bans := s.bans.map (fun (b : UserBan) =>
        if b.user_id = userId ∧ b.is_active = true then
          { b with is_active := false, unban_date := some now } else b) }
      let text := sqlConcat (sqlConcat (some "!System: ") params.username)
        (some " kullanıcısının banı kaldırıldı!")
      let s2 := s1.insertMessage now user.id text "system"
      (⟨200, .message (jsStr params.username ++ " kullanıcısının banı kaldırıldı")⟩, s2)

/-- The statement of `case '/clear'`. -/
def clearCommand (s : Store) : Response × Store :=
  (⟨200, .message "Tüm mesajlar silindi"⟩,
    { s with messages := s.messages.map (fun m => { m with is_deleted := true }) })

/-- The least value of a parameter of type `sql.Int`. -/
def sqlIntMin : Int := -2147483648

/-- The greatest value of a parameter of type `sql.Int`. -/
def sqlIntMax : Int := 2147483647

/-- The message of the error with which the driver refuses a parameter of type
`sql.Int` outside the 32-bit range.  Its wording is not part of the sources;
the handler only tests whether it is the user-not-found text. -/
def validationFailed : String := "Validation failed for parameter duration"

/-- The least value of the T-SQL type `datetime`, 1753-01-01 00:00:00, in
milliseconds since the JavaScript epoch. -/
def datetimeMin : Int := -6847804800000

/-- The greatest value of the T-SQL type `datetime`, 9999-12-31 23:59:59.997,
in milliseconds since the JavaScript epoch. -/
def datetimeMax : Int := 253402300799997

/-- The time is a value of the T-SQL type `datetime`. -/
def isDatetime (t : Int) : Bool := decide (datetimeMin ≤ t) && decide (t ≤ datetimeMax)

/-- The value bound to `@duration` by `case '/mute'`:
`parseInt(params.duration) || 5`. -/
def muteDuration (params : CommandParams) : Int :=
  match parseInt params.duration with
  | none => 5
  | some d => if d = 0 then 5 else d

/-- The batch of `case '/mute'`.  A duration outside the range of `sql.Int` is
refused by the driver before the batch runs, which ends in the catch block.
`DATEADD` is modelled as addition; what the batch does when the sum is not a
`datetime` (see `isDatetime`) is not determined by the sources. -/
def muteCommand (s : Store) (now : Int) (user : Claims) (params : CommandParams) :
    Response × Store :=
  let duration : Int := muteDuration params
  if duration < sqlIntMin ∨ sqlIntMax < duration then (commandError validationFailed, s)
  else
    let userId := resolveUser s params.username
    let s1 : Store := { s with mutes := s.mutes ++
      [newMute now userId user.id duration (now + duration * 60000)] }
    let text := sqlConcat (sqlConcat (sqlConcat (sqlConcat (some "!System: ") params.username)
      (some " ")) (some (toString duration))) (some " dakika susturuldu!")
    let s2 := s1.insertMessage now user.id text "system"
    (⟨200, .message (jsStr params.username ++ " susturuldu")⟩, s2)

/-- The batch of `case '/unmute'`. -/
def unmuteCommand (s : Store) (now : Int) (user : Claims) (params : CommandParams) :
    Response × Store :=
  match resolveUser s params.username with
  | none => (commandError "Kullanıcı bulunamadı", s)
  | some userId =>
    let s1 : Store := { s with mutes := s.mutes.map (fun (m : UserMute) =>
      if m.user_id = some userId ∧ m.is_active = true then
        { m with is_active := false, unmute_time := now } else m) }
    let text := sqlConcat (sqlConcat (some "!System: ") params.username)
      (some " susturulması kaldırıldı!")
    let s2 := s1.insertMessage now user.id text "system"
    (⟨200, .message (jsStr params.username ++ " susturulması kaldırıldı")⟩, s2)

/-- The statement of `case '/edit'`. -/
def editCommand (s : Store) (now : Int) (params : CommandParams) : Response × Store :=
  (⟨200, .message "Mesaj düzenlendi"⟩,
    { s with messages := s.messages.map (fun m =>
      if some m.id = params.messageId then
        { m with message := params.newText, is_edited := true, edited_at := some now }
      else m) })

/-- The batch of `case '/announce'`. -/
def announceCommand (s : Store) (now : Int) (user : Claims) (params : CommandParams) :
    Response × Store :=
  (⟨200, .message "Duyuru yapıldı"⟩, s.insertMessage now user.id params.message "announcement")

/-- A case of the switch that reads `params`: with `params` missing the
property access throws and the catch block answers 500. -/
def withParams (s : Store) (params : Option CommandParams)
    (run : CommandParams → Response × Store) : Response × Store :=
  match params with
  | none => (commandError "Cannot read properties of undefined", s)
  | some p => run p

/-- Handler of `POST /api/admin/command`. -/
def adminCommand (s : Store) (now : Int) (user : Claims) (body : CommandBody) :
    Response × Store :=
  if !user.is_admin then (⟨403, .error "Admin yetkisi gerekli"⟩, s)
  else if body.command = some "/ban" then withParams s body.params (banCommand s now user)
  else if body.command = some "/unban" then withParams s body.params (unbanCommand s now user)
  else if body.command = some "/clear" then clearCommand s
  else if body.command = some "/mute" then withParams s body.params (muteCommand s now user)
  else if body.command = some "/unmute" then withParams s body.params (unmuteCommand s now user)
  else if body.command = some "/edit" then withParams s body.params (editCommand s now)
  else if body.command = some "/announce" then
    withParams s body.params (announceCommand s now user)
  else (⟨400, .error "Geçersiz komut"⟩, s)

/-- The message of the error thrown inside the `try` block of the command
handler for an admin caller, if one is thrown: the `THROW` statements of the
`/ban`, `/unban` and `/unmute` batches, the refusal of a `/mute` duration
outside the range of `sql.Int`, and the property access on a missing `params`. -/
def commandThrows (s : Store) (body : CommandBody) : Option String :=
  let noParams : Option String := some "Cannot read properties of undefined"
  if body.command = some "/ban" ∨ body.command = some "/unmute" then
    match body.params with
    | none => noParams
    | some params =>
      if resolveUser s params.username = none then some "Kullanıcı bulunamadı" else none
  else if body.command = some "/unban" then
    match body.params with
    | none => noParams
    | some params =>
      match resolveUser s params.username with
      | none => some "Kullanıcı bulunamadı"
      | some userId =>
        if !(s.bans.any (fun b => b.user_id == userId && b.is_active)) then
          some "Kullanıcı zaten banlı değil"
        else none
  else if body.command = some "/mute" then
    match body.params with
    | none => noParams
    | some params =>
      if muteDuration params < sqlIntMin ∨ sqlIntMax < muteDuration params then
        some validationFailed
      else none
  else if body.command = some "/edit" ∨ body.command = some "/announce" then
    match body.params with
    | none => noParams
    | some _ => none
  else none

/-! ## POST /api/messages/:id/react -/

/-- JavaScript `findIndex`: the index of the first element satisfying `p`, or `-1`. -/
def findIndex {α : Type} (p : α → Bool) (l : List α) : Int :=
  if l.findIdx p < l.length then (l.findIdx p : Int) else -1

/-- The toggle of the react handler on the parsed reaction array. -/
def toggleReaction (reactions : List Reaction) (userId : Int) (reaction : String) :
    List Reaction :=
  let existingReaction :=
    findIndex (fun r => decide (r.userId = userId) && decide (r.reaction = reaction)) reactions
  if existingReaction > -1 then reactions.eraseIdx existingReaction.toNat
  else reactions ++ [⟨userId, reaction⟩]

/-- The reaction array the react handler starts from: the parsed `reactions`
column of the first row with the id (empty when the column is NULL); `none`
when no row has the id. -/
def currentReactions (s : Store) (messageId : Int) : Option (List Reaction) :=
  ((s.messages.filter (fun m => m.id == messageId)).head?).map (fun m => m.reactions.getD [])

/-- Handler of `POST /api/messages/:id/react`, for a `reaction` that is a
string.  A request for an id without a row ends in the catch block. -/
def react (s : Store) (messageId : Int) (user : Claims) (reaction : String) :
    Response × Store :=
  match currentReactions s messageId with
  | none => (⟨500, .error "Tepki işlenemedi"⟩, s)
  | some current =>
    let reactions := toggleReaction current user.id reaction
    (⟨200, .reacted reactions⟩,
      { s with messages := s.messages.map (fun m =>
        if m.id = messageId then { m with reactions := some reactions } else m) })

/-! ## Sequences of ban and unban commands -/

/-- A `/ban` or `/unban` command with its parameters. -/
inductive ModCommand where
  | ban (username : String) (reason : String)
  | unban (username : String)
deriving DecidableEq

/-- One admin request of a moderation sequence. -/
structure ModRequest where
  now : Int
  admin : Claims
  command : ModCommand
deriving DecidableEq

/-- The request body of a moderation command. -/
def ModCommand.body : ModCommand → CommandBody
  | .ban username reason =>
    ⟨some "/ban", some { username := some username, reason := some reason }⟩
  | .unban username => ⟨some "/unban", some { username := some username }⟩

/-- The store after one moderation request. -/
def modStep (s : Store) (r : ModRequest) : Store :=
  (adminCommand s r.now r.admin r.command.body).2

/-- The store after a sequence of moderation requests. -/
def runModeration (s : Store) : List ModRequest → Store
  | [] => s
  | r :: rs => runModeration (modStep s r) rs

/-- The ban rows of a user with `is_active = 1`. -/
def activeBans (s : Store) (user_id : Int) : List UserBan :=
  s.bans.filter (fun b => b.user_id == user_id && b.is_active)

/-- Every user has at most one ban row with `is_active = 1`. -/
def AtMostOneActiveBan (s : Store) : Prop :=
  ∀ u ∈ s.users, (activeBans s u.id).length ≤ 1

/-- No `/ban` of the sequence names a user who has an active ban when the
command runs. -/
def bansOnlyUnbanned (s : Store) : List ModRequest → Bool
  | [] => true
  | r :: rs =>
    (match r.command with
      | .ban username _ =>
        (match resolveUser s (some username) with
          | none => true
          | some userId => (activeBans s userId).isEmpty)
      | .unban _ => true) && bansOnlyUnbanned (modStep s r) rs

/-! ## DELETE /api/messages/:id and DELETE /api/admin/messages/:id -/

/-- Handler of `DELETE /api/messages/:id`, for a numeric id: the `UPDATE` runs
and the answer depends on the number of rows it affected. -/
def deleteMessage (s : Store) (messageId : Int) (user : Claims) : Response × Store :=
  let rowsAffected :=
    (s.messages.filter (fun m => m.id == messageId && m.user_id == user.id)).length
  let s1 : Store := { s with messages := s.messages.map (fun (m : Message) =>
    if m.id = messageId ∧ m.user_id = user.id then { m with is_deleted := true } else m) }
  if rowsAffected = 0 then (⟨404, .error "Mesaj bulunamadı veya silme yetkisi yok"⟩, s1)
  else (⟨200, .message "Mesaj başarıyla silindi"⟩, s1)

/-- Handler of `DELETE /api/admin/messages/:id`, for a numeric id. -/
def adminDeleteMessage (s : Store) (now : Int) (messageId : Int) (user : Claims) :
    Response × Store :=
  if !user.is_admin then (⟨403, .error "Yetkiniz yok"⟩, s)
  else
    let s1 : Store := { s with messages := s.messages.map (fun (m : Message) =>
      if m.id = messageId then
        { m with message := some "Deleted by admin!", is_edited := true, edited_at := some now }
      else m) }
    let s2 := s1.insertMessage now user.id
      (some "!System: Bir mesaj admin tarafından silindi!") "system"
    (⟨200, .message "Mesaj silindi"⟩, s2)

/-! ## POST /api/messages/quote -/

/-- Body of `POST /api/messages/quote`; each field may be missing. -/
structure QuoteBody where
  originalMessageId : Option Int
  quotedText : Option String
  newMessage : Option String
deriving DecidableEq

/-- Modelled from the spec: the default of the column `Messages.message_type`,
whose table declaration is not part of the sources; a message is of type
`text` unless the insert names another type. -/
def defaultMessageType : String := "text"

/-- Handler of `POST /api/messages/quote`. -/
def quoteMessage (s : Store) (now : Int) (user : Claims) (body : QuoteBody) :
    Response × Store :=
  let originalMessage :=
    joinUsers s.users (s.messages.filter (fun m => some m.id == body.originalMessageId))
  if originalMessage.length = 0 then (⟨404, .error "Alıntılanacak mesaj bulunamadı"⟩, s)
  else
    let messageId := s.nextMessageId
    let s1 : Store := { s with
      messages := s.messages ++ [newMessage messageId now user.id body.newMessage
        defaultMessageType body.quotedText body.originalMessageId],
      nextMessageId := s.nextMessageId + 1 }
    (⟨200, .quoted messageId⟩, s1)

/-! ## Guild membership -/

/-- Row of the `GuildMembers` table. -/
structure GuildMember where
  guild_id : Int
  user_id : Int
deriving DecidableEq

/-- The tables the membership handlers read and write. -/
structure GuildState where
  users : List User
  guildMembers : List GuildMember
deriving DecidableEq

/-- Handler of `POST /api/guilds/:id/invite`; `id` is the path parameter as
sent and `username` the field of the body. -/
def guildInvite (g : GuildState) (id : String) (username : Option String) :
    Response × GuildState :=
  match parseInt (some id) with
  | none => (⟨400, .error "Invalid guild ID"⟩, g)
  | some guildId =>
    match (g.users.filter (fun u => some u.username == username)).head? with
    | none => (⟨404, .error "User not found"⟩, g)
    | some found =>
      let userId := found.id
      let memberCheck := g.guildMembers.filter (fun gm => gm.user_id == userId)
      if memberCheck.length > 0 then (⟨400, .error "User is already a member of a guild"⟩, g)
      else
        (⟨200, .message "User invited to guild successfully"⟩,
          { g with guildMembers := g.guildMembers ++ [⟨guildId, userId⟩] })

/-- Handler of `POST /api/guilds/:id/join`, for a numeric id. -/
def guildJoin (g : GuildState) (guildId : Int) (user : Claims) : Response × GuildState :=
  let memberCheck :=
    g.guildMembers.filter (fun gm => gm.guild_id == guildId && gm.user_id == user.id)
  if memberCheck.length > 0 then (⟨400, .error "Already a member of this guild"⟩, g)
  else
    (⟨200, .message "Successfully joined guild"⟩,
      { g with guildMembers := g.guildMembers ++ [⟨guildId, user.id⟩] })

/-- Handler of `POST /api/guilds/:id/leave`; `id` is the path parameter as sent. -/
def guildLeave (g : GuildState) (id : String) (user : Claims) : Response × GuildState :=
  match parseInt (some id) with
  | none => (⟨400, .error "Invalid guild ID"⟩, g)
  | some guildId =>
    (⟨200, .message "Successfully left guild"⟩,
      { g with guildMembers := g.guildMembers.filter (fun gm =>
        !(gm.guild_id == guildId && gm.user_id == user.id)) })

/-- An invite, join or leave request. -/
inductive GuildRequest where
  | invite (id : String) (username : Option String)
  | join (guildId : Int) (user : Claims)
  | leave (id : String) (user : Claims)
deriving DecidableEq

/-- The state after one membership request. -/
def guildStep (g : GuildState) : GuildRequest → GuildState
  | .invite id username => (guildInvite g id username).2
  | .join guildId user => (guildJoin g guildId user).2
  | .leave id user => (guildLeave g id user).2

/-- The state after a sequence of membership requests. -/
def runGuild (g : GuildState) : List GuildRequest → GuildState
  | [] => g
  | r :: rs => runGuild (guildStep g r) rs

/-- The membership rows of a user. -/
def membershipsOf (g : GuildState) (user_id : Int) : List GuildMember :=
  g.guildMembers.filter (fun gm => gm.user_id == user_id)

/-- Every user has at most one membership row. -/
def AtMostOneGuild (g : GuildState) : Prop :=
  ∀ u ∈ g.users, (membershipsOf g u.id).length ≤ 1

/-- The request is not a join. -/
def GuildRequest.notJoin : GuildRequest → Bool
  | .join _ _ => false
  | _ => true

/-! ## POST /api/auth/register -/

/-- Body of `POST /api/auth/register`, for a request that carries a username
and a password; the other two fields may be missing. -/
structure RegisterBody where
  username : String
  password : String
  email : Option String
  display_name : Option String
deriving DecidableEq

/-- The `Users` table with its identity counter. -/
structure Accounts where
  users : List User
  nextUserId : Int
deriving DecidableEq

/-- Handler of `POST /api/auth/register`.  `hash` stands for `bcrypt.hash`
and `defaults` for the column defaults of `Users`, whose table declaration is
not part of the sources; the signed token of the answer is left out. -/
def register (hash : String → String) (defaults : User) (a : Accounts) (body : RegisterBody) :
    Response × Accounts :=
  let checkUser := a.users.filter (fun u =>
    u.username == body.username || (body.email.isSome && u.email == body.email))
  if checkUser.length > 0 then
    (⟨400, .error "Bu kullanıcı adı veya email zaten kullanımda"⟩, a)
  else
    let hashedPassword := hash body.password
    let display_name :=
      if truthy body.display_name then body.display_name.getD body.username else body.username
    let id := a.nextUserId
    let row : User := { defaults with
      id := id, username := body.username, password := hashedPassword, email := body.email,
      display_name := some display_name }
    (⟨201, .registered ⟨id, body.username, some display_name, false⟩⟩,
      { users := a.users ++ [row], nextUserId := id + 1 })

/-! ## Experience -/

/-- Modelled from the spec: the stored procedure `UpdateUserExperience`, which
is not part of the sources.  The experience of the user grows by a function of
the message length (never negative: no experience is ever subtracted); when it
reaches `next_level_xp` the level goes up by one and the threshold is
recomputed by a level-scaling function.  The spec leaves both functions open:
they are the parameters `gain` and `scale`. -/
def updateUserExperience (gain : Nat → Nat) (scale : Int → Int) (userId : Int)
    (messageLength : Nat) (users : List User) : List User :=
  users.map (fun u =>
    if u.id = userId then
      if u.experience + (gain messageLength : Int) ≥ u.next_level_xp then
        { u with experience := u.experience + (gain messageLength : Int),
                 level := u.level + 1, next_level_xp := scale (u.level + 1) }
      else { u with experience := u.experience + (gain messageLength : Int) }
    else u)

/-- The store after a sequence of post requests of one user, each with its
time and body. -/
def runPosts (xp : Int → Nat → List User → List User) (s : Store) (user : Claims) :
    List (Int × PostBody) → Store
  | [] => s
  | p :: rest => runPosts xp (postMessage xp s p.1 user p.2).2 user rest

/-! ## Tags (`frontend/js/chat.js`) -/

/-- Row of the `Tags` table as the client receives it. -/
structure Tag where
  name : String
  color_hex : String
  required_level : Int
deriving DecidableEq

/-- The value answered by `determineTag`: the constant object with the name
`Unknown` and the colour `#000000`, or a tag of the list. -/
inductive TagChoice where
  | unknown
  | listed (tag : Tag)
deriving DecidableEq

/-- The `name` of the answered object. -/
def TagChoice.name : TagChoice → String
  | .unknown => "Unknown"
  | .listed tag => tag.name

/-- The `color_hex` of the answered object. -/
def TagChoice.color_hex : TagChoice → String
  | .unknown => "#000000"
  | .listed tag => tag.color_hex

/-- The level `determineTag` works with: a missing, zero or below-1 level
becomes 1 (`if (!userLevel || userLevel < 1) userLevel = 1`). -/
def effectiveLevel : Option Int → Int
  | none => 1
  | some userLevel => if userLevel = 0 ∨ userLevel < 1 then 1 else userLevel

/-- The `for` loop of `determineTag` over the sorted tags, from the current
`appropriateTag`; the loop breaks at the first tag that asks for more. -/
def tagLoop (userLevel : Int) : List Tag → Tag → Tag
  | [], appropriateTag => appropriateTag
  | tag :: rest, appropriateTag =>
    if userLevel ≥ tag.required_level then tagLoop userLevel rest tag else appropriateTag

/-- The function `determineTag(userLevel)` over the global `tags`, which may
be missing or empty. -/
def determineTag (tags : Option (List Tag)) (userLevel : Option Int) : TagChoice :=
  let userLevel := effectiveLevel userLevel
  match tags with
  | none => .unknown
  | some [] => .unknown
  | some (t :: ts) =>
    let sortedTags := orderByAsc (fun tag => tag.required_level) (t :: ts)
    match sortedTags with
    | [] => .unknown
    | first :: _ => .listed (tagLoop userLevel sortedTags first)

/-! ## Sample data -/

/-- A user row with the given id, name and admin flag. -/
def sampleUser (id : Int) (username : String) (is_admin : Bool) : User :=
  { id := id, username := username, password := "hash", email := none, display_name := none,
    avatar_url := none, is_admin := is_admin, level := 1, experience := 0, next_level_xp := 100,
    is_online := true, last_seen := none }

/-- The token claims of the sample admin. -/
def rootClaims : Claims := ⟨1, "root", none, true⟩

/-- The token claims of the sample member. -/
def aliceClaims : Claims := ⟨2, "alice", none, false⟩

/-- A store with an admin, a member and one message of the member. -/
def sampleStore : Store :=
  { users := [sampleUser 1 "root" true, sampleUser 2 "alice" false],
    messages := [newMessage 1 1000 2 (some "hello") "text" none none],
    bans := [], mutes := [], nextMessageId := 2 }

/-- The sample store after `alice` was banned at time 2000. -/
def bannedStore : Store :=
  { sampleStore with bans := [newBan 2000 2 1 (some "spam")] }

/-- The sample store with a one-minute mute of `alice` issued at time 2000. -/
def mutedStore : Store :=
  { sampleStore with mutes := [newMute 2000 (some 2) 1 1 62000] }

/-- A store whose only message carries the same reaction of one user twice. -/
def doubledReactionStore : Store :=
  { sampleStore with messages :=
      [{ newMessage 1 1000 2 (some "hello") "text" none none with
          reactions := some [⟨2, "+1"⟩, ⟨2, "+1"⟩] }] }

/-- A store with 101 visible messages of `alice`, created at times 1000 to 1100. -/
def longStore : Store :=
  { sampleStore with
    messages := (List.range 101).map (fun i =>
      newMessage ((i : Int) + 1) (1000 + (i : Int)) 2 (some "hello") "text" none none),
    nextMessageId := 102 }

/-- An experience procedure for examples: one point per message. -/
def sampleXp (userId : Int) (_messageLength : Nat) (users : List User) : List User :=
  users.map (fun u => if u.id = userId then { u with experience := u.experience + 1 } else u)

/-- The sample store in which the admin `root` has an active ban and a mute
in effect until 62000. -/
def blockedRootStore : Store :=
  { sampleStore with
    bans := [newBan 2000 1 1 (some "test")],
    mutes := [newMute 2000 (some 1) 1 1 62000] }

/-- The sample users, `alice` being a member of guild 1. -/
def sampleGuilds : GuildState :=
  { users := sampleStore.users, guildMembers := [⟨1, 2⟩] }

/-- The column defaults used in the registration examples. -/
def defaultUser : User := sampleUser 0 "" false

/-- The sample users as an account table. -/
def sampleAccounts : Accounts := { users := sampleStore.users, nextUserId := 3 }

/-- Three tags in an order that is not the order of their levels. -/
def sampleTags : List Tag :=
  [⟨"Veteran", "#ff0000", 10⟩, ⟨"Newcomer", "#00ff00", 1⟩, ⟨"Regular", "#0000ff", 5⟩]

/-! ## Queries of the post handler -/

/-- `ORDER BY ... DESC` returns no first row exactly when there are no rows. -/
theorem orderByDesc_head?_eq_none {α : Type} (key : α → Int) (rows : List α) :
    (orderByDesc key rows).head? = none ↔ rows = [] := by
  unfold orderByDesc
  rw [List.head?_eq_none_iff]
  constructor
  · intro h
    have := List.length_insertionSort (fun a b => key b ≤ key a) rows
    rw [h] at this
    exact List.length_eq_zero.mp this.symm
  · rintro rfl; rfl

/-- The first row of `ORDER BY ... DESC` is one of the rows. -/
theorem orderByDesc_head?_mem {α : Type} (key : α → Int) (rows : List α) (a : α)
    (h : (orderByDesc key rows).head? = some a) : a ∈ rows := by
  unfold orderByDesc at h
  have hm : a ∈ rows.insertionSort (fun a b => key b ≤ key a) := List.mem_of_mem_head? h
  exact (List.perm_insertionSort _ rows).mem_iff.mp hm

/-- The ban query is empty exactly when the user has no active ban row. -/
theorem banCheck_eq_none (s : Store) (uid : Int) :
    banCheck s uid = none ↔ ∀ b ∈ s.bans, ¬ (b.user_id = uid ∧ b.is_active = true) := by
  unfold banCheck
  rw [orderByDesc_head?_eq_none, List.filter_eq_nil_iff]
  simp

/-- The row returned by the ban query is an active ban row of the user. -/
theorem banCheck_some (s : Store) (uid : Int) (b : UserBan) (h : banCheck s uid = some b) :
    b ∈ s.bans ∧ b.user_id = uid ∧ b.is_active = true := by
  have hm := orderByDesc_head?_mem _ _ b h
  simpa using hm

/-- The mute query is empty exactly when no active mute of the user is unexpired. -/
theorem muteCheck_eq_none (s : Store) (now uid : Int) :
    muteCheck s now uid = none ↔
      ∀ m ∈ s.mutes, ¬ (m.user_id = some uid ∧ m.is_active = true ∧ now < m.unmute_time) := by
  unfold muteCheck
  rw [orderByDesc_head?_eq_none, List.filter_eq_nil_iff]
  simp [and_assoc]

/-- A non-empty string is truthy. -/
theorem truthy_some (msg : String) (h : msg ≠ "") : truthy (some msg) = true := by
  simp [truthy, h]

/-- With both queries empty and a non-empty message the post handler answers 201. -/
theorem postMessage_unblocked (xp : Int → Nat → List User → List User) (s : Store) (now : Int)
    (user : Claims) (body : PostBody) (msg : String)
    (hb : banCheck s user.id = none) (hm : muteCheck s now user.id = none)
    (hmsg : body.message = some msg) (hne : msg ≠ "") :
    (postMessage xp s now user body).1.status = 201 := by
  unfold postMessage
  simp [hb, hm, hmsg, truthy_some msg hne]

/-- With the ban query empty and a mute returned, the post handler answers the mute error
and leaves the store as it is. -/
theorem postMessage_muted (xp : Int → Nat → List User → List User) (s : Store) (now : Int)
    (user : Claims) (body : PostBody) (muteInfo : UserMute)
    (hb : banCheck s user.id = none) (hm : muteCheck s now user.id = some muteInfo) :
    postMessage xp s now user body =
      (⟨403, .muted ("Hesabınız " ++ toString (ceilDiv (muteInfo.unmute_time - now) 60000)
        ++ " dakika boyunca susturuldu.") muteInfo⟩, s) := by
  unfold postMessage
  simp only [hb, hm]

/-! ## Dispatch of the command handler -/

/-- A caller without the admin flag is answered 403 before the switch. -/
theorem adminCommand_not_admin (s : Store) (now : Int) (user : Claims) (body : CommandBody)
    (h : user.is_admin = false) :
    adminCommand s now user body = (⟨403, .error "Admin yetkisi gerekli"⟩, s) := by
  simp [adminCommand, h]

/-- For an admin the `/ban` case runs the ban batch. -/
theorem adminCommand_ban (s : Store) (now : Int) (user : Claims) (params : CommandParams)
    (h : user.is_admin = true) :
    adminCommand s now user ⟨some "/ban", some params⟩ = banCommand s now user params := by
  simp [adminCommand, h, withParams]

/-- For an admin the `/unban` case runs the unban batch. -/
theorem adminCommand_unban (s : Store) (now : Int) (user : Claims) (params : CommandParams)
    (h : user.is_admin = true) :
    adminCommand s now user ⟨some "/unban", some params⟩ = unbanCommand s now user params := by
  simp [adminCommand, h, withParams]

/-- For an admin the `/clear` case runs the clear statement, whatever `params` is. -/
theorem adminCommand_clear (s : Store) (now : Int) (user : Claims) (params : Option CommandParams)
    (h : user.is_admin = true) :
    adminCommand s now user ⟨some "/clear", params⟩ = clearCommand s := by
  simp [adminCommand, h]

/-- For an admin the `/unmute` case runs the unmute batch. -/
theorem adminCommand_unmute (s : Store) (now : Int) (user : Claims) (params : CommandParams)
    (h : user.is_admin = true) :
    adminCommand s now user ⟨some "/unmute", some params⟩ = unmuteCommand s now user params := by
  simp [adminCommand, h, withParams]

/-- For an admin the `/mute` case runs the mute batch. -/
theorem adminCommand_mute (s : Store) (now : Int) (user : Claims) (params : CommandParams)
    (h : user.is_admin = true) :
    adminCommand s now user ⟨some "/mute", some params⟩ = muteCommand s now user params := by
  simp [adminCommand, h, withParams]

/-- For an admin the `/edit` case runs the edit statement. -/
theorem adminCommand_edit (s : Store) (now : Int) (user : Claims) (params : CommandParams)
    (h : user.is_admin = true) :
    adminCommand s now user ⟨some "/edit", some params⟩ = editCommand s now params := by
  simp [adminCommand, h, withParams]

/-- For an admin the `/announce` case runs the announce batch. -/
theorem adminCommand_announce (s : Store) (now : Int) (user : Claims) (params : CommandParams)
    (h : user.is_admin = true) :
    adminCommand s now user ⟨some "/announce", some params⟩ =
      announceCommand s now user params := by
  simp [adminCommand, h, withParams]

/-- A case that reads `params` ends in the catch block when `params` is missing. -/
theorem adminCommand_no_params (s : Store) (now : Int) (user : Claims) (command : String)
    (h : user.is_admin = true)
    (hc : command ∈ ["/ban", "/unban", "/mute", "/unmute", "/edit", "/announce"]) :
    adminCommand s now user ⟨some command, none⟩ =
      (commandError "Cannot read properties of undefined", s) := by
  simp only [List.mem_cons, List.mem_singleton, List.not_mem_nil, or_false] at hc
  rcases hc with rfl | rfl | rfl | rfl | rfl | rfl <;> simp [adminCommand, h, withParams]

/-- The set of `StrWhiteSpaceChar` holds more than the ASCII blanks: a vertical tab, a
no-break space, a byte order mark and the wide spaces before the sign are skipped as well;
the zero width space U+200B is not in the set, so the number after it is not read. -/
theorem parseInt_skips_white_space :
    parseInt (some "\x0b7") = some 7 ∧ parseInt (some "\u00a07") = some 7 ∧
    parseInt (some "\ufeff\u3000\u2003-7px") = some (-7) ∧
    parseInt (some "\u200b7") = none := by
  decide

/-- The case split of `parseInt(params.duration) || 5`: the parsed value when it is a number
other than 0, and 5 otherwise. -/
theorem muteDuration_cases (params : CommandParams) :
    (parseInt params.duration = some (muteDuration params) ∧ muteDuration params ≠ 0) ∨
    ((parseInt params.duration = none ∨ parseInt params.duration = some 0) ∧
      muteDuration params = 5) := by
  unfold muteDuration
  cases hp : parseInt params.duration with
  | none => exact Or.inr ⟨Or.inl rfl, rfl⟩
  | some d =>
    by_cases hd : d = 0
    · subst hd
      exact Or.inr ⟨Or.inr rfl, rfl⟩
    · left
      refine ⟨?_, ?_⟩ <;> simp [hd]

/-- A duration outside the range of `sql.Int` ends the mute case in the catch block. -/
theorem muteCommand_out_of_range (s : Store) (now : Int) (user : Claims)
    (params : CommandParams)
    (h : muteDuration params < sqlIntMin ∨ sqlIntMax < muteDuration params) :
    muteCommand s now user params = (commandError validationFailed, s) := by
  unfold muteCommand
  simp only [h, if_true]

/-- A duration inside the range of `sql.Int` runs the mute batch. -/
theorem muteCommand_in_range (s : Store) (now : Int) (user : Claims) (params : CommandParams)
    (hlo : sqlIntMin ≤ muteDuration params) (hhi : muteDuration params ≤ sqlIntMax) :
    muteCommand s now user params =
      (⟨200, .message (jsStr params.username ++ " susturuldu")⟩,
        Store.insertMessage
          { s with mutes := s.mutes ++ [newMute now (resolveUser s params.username) user.id
            (muteDuration params) (now + muteDuration params * 60000)] }
          now user.id
          (sqlConcat (sqlConcat (sqlConcat (sqlConcat (some "!System: ") params.username)
            (some " ")) (some (toString (muteDuration params)))) (some " dakika susturuldu!"))
          "system") := by
  have h : ¬ (muteDuration params < sqlIntMin ∨ sqlIntMax < muteDuration params) := by
    intro h
    rcases h with h | h
    · exact absurd hlo (not_le.mpr h)
    · exact absurd hhi (not_le.mpr h)
  unfold muteCommand
  simp only [h, if_false]

/-- The answer of the catch block to the refusal of a parameter. -/
theorem commandError_validationFailed :
    commandError validationFailed = ⟨500, .error "Komut işlenirken hata oluştu"⟩ := by
  decide

/-- When an error is thrown inside the `try` block, the handler answers what the catch block
makes of its message and leaves the store as it is. -/
theorem adminCommand_throws (s : Store) (now : Int) (user : Claims) (body : CommandBody)
    (msg : String) (hadmin : user.is_admin = true) (h : commandThrows s body = some msg) :
    adminCommand s now user body = (commandError msg, s) := by
  obtain ⟨command, params⟩ := body
  unfold commandThrows at h
  simp only at h
  by_cases h1 : command = some "/ban"
  · subst h1
    simp only [true_or, if_true] at h
    cases params with
    | none =>
      simp only [Option.some.injEq] at h
      rw [← h]; exact adminCommand_no_params s now user "/ban" hadmin (by simp)
    | some p =>
      simp only at h
      rw [adminCommand_ban s now user p hadmin]
      cases hres : resolveUser s p.username with
      | none =>
        simp only [hres, if_true, Option.some.injEq] at h
        rw [← h]; simp [banCommand, hres]
      | some uid => simp [hres] at h
  · by_cases h2 : command = some "/unmute"
    · subst h2
      simp only [or_true, if_true] at h
      cases params with
      | none =>
        simp only [Option.some.injEq] at h
        rw [← h]; exact adminCommand_no_params s now user "/unmute" hadmin (by simp)
      | some p =>
        simp only at h
        rw [adminCommand_unmute s now user p hadmin]
        cases hres : resolveUser s p.username with
        | none =>
          simp only [hres, if_true, Option.some.injEq] at h
          rw [← h]; simp [unmuteCommand, hres]
        | some uid => simp [hres] at h
    · simp only [h1, h2, or_self, if_false] at h
      by_cases h3 : command = some "/unban"
      · subst h3
        simp only [if_true] at h
        cases params with
        | none =>
          simp only [Option.some.injEq] at h
          rw [← h]; exact adminCommand_no_params s now user "/unban" hadmin (by simp)
        | some p =>
          simp only at h
          rw [adminCommand_unban s now user p hadmin]
          unfold unbanCommand
          cases hres : resolveUser s p.username with
          | none =>
            simp only [hres, Option.some.injEq] at h
            rw [← h]
          | some uid =>
            simp only [hres] at h
            by_cases hany : (!(s.bans.any (fun b => b.user_id == uid && b.is_active))) = true
            · simp only [hany, if_true, Option.some.injEq] at h
              rw [← h]; simp only [hany, if_true]
            · simp [hany] at h
      · simp only [h3, if_false] at h
        by_cases h4 : command = some "/mute"
        · subst h4
          simp only [if_true] at h
          cases params with
          | none =>
            simp only [Option.some.injEq] at h
            rw [← h]; exact adminCommand_no_params s now user "/mute" hadmin (by simp)
          | some p =>
            simp only at h
            rw [adminCommand_mute s now user p hadmin]
            by_cases hr : muteDuration p < sqlIntMin ∨ sqlIntMax < muteDuration p
            · simp only [hr, if_true, Option.some.injEq] at h
              rw [← h]; exact muteCommand_out_of_range s now user p hr
            · simp [hr] at h
        · simp only [h4, if_false] at h
          by_cases h5 : command = some "/edit" ∨ command = some "/announce"
          · simp only [h5, if_true] at h
            cases params with
            | none =>
              simp only [Option.some.injEq] at h
              rw [← h]
              rcases h5 with rfl | rfl
              · exact adminCommand_no_params s now user "/edit" hadmin (by simp)
              · exact adminCommand_no_params s now user "/announce" hadmin (by simp)
            | some p => simp at h
          · simp [h5] at h

/-- The errors thrown by the `/unban` batch. -/
theorem commandThrows_unban (s : Store) (params : CommandParams) :
    commandThrows s ⟨some "/unban", some params⟩ =
      match resolveUser s params.username with
      | none => some "Kullanıcı bulunamadı"
      | some userId =>
        if !(s.bans.any (fun b => b.user_id == userId && b.is_active)) then
          some "Kullanıcı zaten banlı değil"
        else none := by
  unfold commandThrows
  have h1 : ¬ ((some "/unban" : Option String) = some "/ban" ∨
      (some "/unban" : Option String) = some "/unmute") := by decide
  simp only [h1, if_false, if_true]

/-! ## Ban rows under `/ban` and `/unban` -/

/-- Filtering after a map that never turns a rejected row into an accepted one keeps at most
as many rows. -/
theorem length_filter_map_le {α : Type} (p : α → Bool) (f : α → α) (l : List α)
    (h : ∀ a, p (f a) = true → p a = true) :
    ((l.map f).filter p).length ≤ (l.filter p).length := by
  induction l with
  | nil => simp
  | cons a l ih =>
    by_cases hfa : p (f a) = true
    · have ha := h a hfa
      simpa [hfa, ha] using ih
    · by_cases ha : p a = true
      · have : (List.filter p (List.map f l)).length ≤ (List.filter p l).length + 1 := by omega
        simpa [hfa, ha] using this
      · simpa [hfa, ha] using ih

/-- The ban batch keeps the ids of the `Users` rows. -/
theorem banCommand_users_ids (s : Store) (now : Int) (user : Claims) (params : CommandParams) :
    (banCommand s now user params).2.users.map (fun u => u.id) = s.users.map (fun u => u.id) := by
  unfold banCommand
  cases resolveUser s params.username with
  | none => rfl
  | some userId =>
    simp only [Store.insertMessage, List.map_map]
    apply List.map_congr_left
    intro u _
    by_cases h : u.id = userId <;> simp [h]

/-- The unban batch does not touch `Users`. -/
theorem unbanCommand_users (s : Store) (now : Int) (user : Claims) (params : CommandParams) :
    (unbanCommand s now user params).2.users = s.users := by
  unfold unbanCommand
  cases resolveUser s params.username with
  | none => rfl
  | some userId =>
    by_cases h : (s.bans.any (fun b => b.user_id == userId && b.is_active)) = true
    · simp [h, Store.insertMessage]
    · simp [h]

/-- A moderation request keeps the ids of the `Users` rows. -/
theorem modStep_users_ids (s : Store) (r : ModRequest) :
    (modStep s r).users.map (fun u => u.id) = s.users.map (fun u => u.id) := by
  unfold modStep
  cases hadm : r.admin.is_admin with
  | false => rw [adminCommand_not_admin _ _ _ _ hadm]
  | true =>
    cases r.command with
    | ban username reason =>
      simp only [ModCommand.body]
      rw [adminCommand_ban _ _ _ _ hadm]
      exact banCommand_users_ids _ _ _ _
    | unban username =>
      simp only [ModCommand.body]
      rw [adminCommand_unban _ _ _ _ hadm, unbanCommand_users]

/-- The unban batch never adds an active ban row. -/
theorem unbanCommand_activeBans_le (s : Store) (now : Int) (user : Claims)
    (params : CommandParams) (uid : Int) :
    (activeBans (unbanCommand s now user params).2 uid).length ≤ (activeBans s uid).length := by
  unfold unbanCommand
  cases resolveUser s params.username with
  | none => exact le_refl _
  | some userId =>
    by_cases h : (s.bans.any (fun b => b.user_id == userId && b.is_active)) = true
    · simp only [h, Bool.not_true, Bool.false_eq_true, if_false, Store.insertMessage, activeBans]
      apply length_filter_map_le
      intro b
      by_cases hc : b.user_id = userId ∧ b.is_active = true
      · simp [hc]
      · simp only [hc, if_false]; exact id
    · simp only [h, Bool.not_false, if_true]; exact le_refl _

/-- The active ban rows after the ban batch: one more for the resolved user. -/
theorem banCommand_activeBans (s : Store) (now : Int) (user : Claims) (params : CommandParams)
    (uid : Int) :
    activeBans (banCommand s now user params).2 uid =
      match resolveUser s params.username with
      | none => activeBans s uid
      | some userId =>
        activeBans s uid ++ (if userId = uid then [newBan now userId user.id params.reason] else []) := by
  unfold banCommand
  cases resolveUser s params.username with
  | none => rfl
  | some userId =>
    simp only [Store.insertMessage, activeBans, List.filter_append]
    by_cases h : userId = uid <;> simp [h, newBan]

/-- A request that does not ban an already banned user keeps the active ban rows of every
user at one at most. -/
theorem modStep_activeBans_le (s : Store) (r : ModRequest) (uid : Int)
    (hg : bansOnlyUnbanned s [r] = true) (h : (activeBans s uid).length ≤ 1) :
    (activeBans (modStep s r) uid).length ≤ 1 := by
  unfold modStep
  cases hadm : r.admin.is_admin with
  | false => rw [adminCommand_not_admin _ _ _ _ hadm]; exact h
  | true =>
    cases hc : r.command with
    | ban username reason =>
      simp only [ModCommand.body]
      rw [adminCommand_ban _ _ _ _ hadm, banCommand_activeBans]
      simp only [bansOnlyUnbanned, hc, Bool.and_true] at hg
      cases hres : resolveUser s (some username) with
      | none => simpa using h
      | some userId =>
        simp only [hres] at hg ⊢
        by_cases hu : userId = uid
        · subst hu
          simp only [List.isEmpty_iff] at hg
          simp [hg]
        · simpa [hu] using h
    | unban username =>
      simp only [ModCommand.body]
      rw [adminCommand_unban _ _ _ _ hadm]
      exact le_trans (unbanCommand_activeBans_le _ _ _ _ _) h

/-- The invariant, stated over user ids. -/
theorem atMostOneActiveBan_iff (s : Store) :
    AtMostOneActiveBan s ↔ ∀ uid ∈ s.users.map (fun u => u.id), (activeBans s uid).length ≤ 1 := by
  simp [AtMostOneActiveBan]

/-! ## The reaction toggle -/

/-- Erasing at the index of the first match of a predicate that holds of `a` only erases the
first `a`. -/
theorem eraseIdx_findIdx_eq_erase {α : Type} [DecidableEq α] (a : α) (p : α → Bool)
    (hp : ∀ x, p x = true ↔ x = a) (l : List α) :
    l.eraseIdx (l.findIdx p) = l.erase a := by
  induction l with
  | nil => rfl
  | cons b l ih =>
    by_cases hb : p b = true
    · have hba : b = a := (hp b).mp hb
      subst hba
      simp [List.findIdx_cons, hb]
    · have hba : ¬ b = a := fun h => hb ((hp b).mpr h)
      have hb2 : p b = false := by simpa using hb
      simp [List.findIdx_cons, hb2, hba, ih, List.erase_cons]

/-- The index answered by `findIndex` is not `-1` exactly when some element matches. -/
theorem findIndex_nonneg_iff {α : Type} (p : α → Bool) (l : List α) :
    findIndex p l > -1 ↔ ∃ x ∈ l, p x = true := by
  unfold findIndex
  by_cases h : l.findIdx p < l.length
  · simp only [h, if_true]
    constructor
    · intro _; exact List.findIdx_lt_length.mp h
    · intro _; omega
  · simp only [h, if_false]
    constructor
    · intro h2; omega
    · intro h2; exact absurd (List.findIdx_lt_length.mpr h2) h

/-- The toggle removes the first occurrence of the pair when there is one and appends the
pair otherwise. -/
theorem toggleReaction_eq (rs : List Reaction) (userId : Int) (reaction : String) :
    toggleReaction rs userId reaction =
      if (⟨userId, reaction⟩ : Reaction) ∈ rs then rs.erase ⟨userId, reaction⟩
      else rs ++ [⟨userId, reaction⟩] := by
  have hp : ∀ x : Reaction,
      (decide (x.userId = userId) && decide (x.reaction = reaction)) = true ↔
        x = ⟨userId, reaction⟩ := by
    intro x
    cases x
    simp
  unfold toggleReaction
  by_cases hmem : (⟨userId, reaction⟩ : Reaction) ∈ rs
  · have hex : ∃ x ∈ rs, (decide (x.userId = userId) && decide (x.reaction = reaction)) = true :=
      ⟨_, hmem, (hp _).mpr rfl⟩
    have hlt := List.findIdx_lt_length.mpr hex
    have hpos := (findIndex_nonneg_iff _ rs).mpr hex
    simp only [hpos, hmem, if_true]
    simp only [findIndex, hlt, if_true, Int.toNat_ofNat]
    exact eraseIdx_findIdx_eq_erase _ _ hp rs
  · have hno : ¬ findIndex
        (fun r : Reaction => decide (r.userId = userId) && decide (r.reaction = reaction)) rs > -1 := by
      rw [findIndex_nonneg_iff]
      rintro ⟨x, hx, hpx⟩
      exact hmem ((hp x).mp hpx ▸ hx)
    simp only [hno, hmem, if_false]

/-- On an existing message the react handler answers and stores the toggled array. -/
theorem react_current (s : Store) (messageId : Int) (user : Claims) (reaction : String)
    (rs : List Reaction) (h : currentReactions s messageId = some rs) :
    (react s messageId user reaction).1 = ⟨200, .reacted (toggleReaction rs user.id reaction)⟩ ∧
    currentReactions (react s messageId user reaction).2 messageId =
      some (toggleReaction rs user.id reaction) := by
  unfold react
  simp only [h, true_and]
  unfold currentReactions at h ⊢
  simp only [List.filter_map, List.head?_map]
  cases hh : (s.messages.filter (fun m => m.id == messageId)).head? with
  | none => simp [hh] at h
  | some m0 =>
    have hm0 : m0 ∈ s.messages.filter (fun m => m.id == messageId) := List.mem_of_mem_head? hh
    have hid : m0.id = messageId := by simpa using (List.mem_filter.mp hm0).2
    have hfil : (List.filter ((fun m : Message => m.id == messageId) ∘ fun m =>
        if m.id = messageId then
          { m with reactions := some (toggleReaction rs user.id reaction) } else m) s.messages)
        = s.messages.filter (fun m => m.id == messageId) := by
      apply List.filter_congr
      intro m _
      by_cases hm : m.id = messageId <;> simp [hm]
    rw [hfil, hh]
    simp [hid]

/-! ## The listing -/

/-- `ORDER BY ... ASC` answers its rows in ascending key order. -/
theorem orderByAsc_sorted {α : Type} (key : α → Int) (rows : List α) :
    (orderByAsc key rows).Pairwise (fun a b => key a ≤ key b) := by
  haveI : IsTotal α (fun a b => key a ≤ key b) := ⟨fun a b => le_total (key a) (key b)⟩
  haveI : IsTrans α (fun a b => key a ≤ key b) := ⟨fun _ _ _ h1 h2 => le_trans h1 h2⟩
  exact List.sorted_insertionSort (fun a b => key a ≤ key b) rows

/-- The listing is the first 100 rows of the visible joined rows in ascending `created_at` order. -/
theorem listing_eq (s : Store) :
    listing s = (orderByAsc (fun r => r.m.created_at)
      (joinUsers s.users (s.messages.filter (fun m => !m.is_deleted)))).take 100 := rfl

/-- The listing is in ascending `created_at` order. -/
theorem listing_ascending (s : Store) :
    (listing s).Pairwise (fun a b => a.m.created_at ≤ b.m.created_at) := by
  rw [listing_eq]
  exact (orderByAsc_sorted _ _).sublist (List.take_sublist _ _)

/-- Every visible row left out of the listing was created no earlier than every listed row. -/
theorem listing_oldest (s : Store) (r : MessageRow) (hr : r ∈ listing s) (r2 : MessageRow)
    (h2 : r2 ∈ (orderByAsc (fun r => r.m.created_at)
      (joinUsers s.users (s.messages.filter (fun m => !m.is_deleted)))).drop 100) :
    r.m.created_at ≤ r2.m.created_at := by
  rw [listing_eq] at hr
  have hs := orderByAsc_sorted (fun r : MessageRow => r.m.created_at)
    (joinUsers s.users (s.messages.filter (fun m => !m.is_deleted)))
  rw [← List.take_append_drop 100 (orderByAsc (fun r : MessageRow => r.m.created_at)
    (joinUsers s.users (s.messages.filter (fun m => !m.is_deleted))))] at hs
  exact (List.pairwise_append.mp hs).2.2 r hr r2 h2

/-! ## Deleting, redacting and quoting messages -/

/-- Mapping a function that fixes every element of a list gives the list back. -/
theorem map_eq_self_of_forall {α : Type} (f : α → α) (l : List α) (h : ∀ a ∈ l, f a = a) :
    l.map f = l := by
  induction l with
  | nil => rfl
  | cons a l ih =>
    simp only [List.map_cons]
    rw [h a (List.mem_cons_self _ _), ih (fun b hb => h b (List.mem_cons_of_mem _ hb))]

/-- The store after the `UPDATE` of the delete handler. -/
theorem deleteMessage_messages (s : Store) (messageId : Int) (user : Claims) :
    (deleteMessage s messageId user).2 = { s with messages := s.messages.map (fun (m : Message) =>
      if m.id = messageId ∧ m.user_id = user.id then { m with is_deleted := true } else m) } := by
  unfold deleteMessage
  simp only
  split <;> rfl

/-- The join with `Users` is empty exactly when no message has an author row. -/
theorem joinUsers_eq_nil_iff (users : List User) (ms : List Message) :
    joinUsers users ms = [] ↔ ∀ m ∈ ms, ∀ u ∈ users, u.id ≠ m.user_id := by
  unfold joinUsers
  simp only [List.flatMap_eq_nil_iff, List.map_eq_nil_iff, List.filter_eq_nil_iff]
  simp

/-- A row-wise update that keeps `quoted_text`, followed by appended rows, keeps the
`quoted_text` at every old position. -/
theorem getElem?_map_append_quoted (f : Message → Message)
    (hf : ∀ m, (f m).quoted_text = m.quoted_text) (l extra : List Message) (i : Nat)
    (m : Message) (h : l[i]? = some m) :
    ((l.map f ++ extra)[i]?).map (fun m => m.quoted_text) = some m.quoted_text := by
  have hlt : i < (l.map f).length := by
    rw [List.length_map]; exact (List.getElem?_eq_some_iff.mp h).1
  rw [List.getElem?_append_left hlt, List.getElem?_map, h]
  simp [hf]

/-- The delete handler keeps the `quoted_text` of every row. -/
theorem deleteMessage_quoted_text (s : Store) (messageId : Int) (user : Claims) (i : Nat)
    (m : Message) (h : s.messages[i]? = some m) :
    ((deleteMessage s messageId user).2.messages[i]?).map (fun m => m.quoted_text) =
      some m.quoted_text := by
  have hrun : (deleteMessage s messageId user).2.messages = s.messages.map (fun (m : Message) =>
      if m.id = messageId ∧ m.user_id = user.id then { m with is_deleted := true } else m) ++ [] := by
    unfold deleteMessage
    simp only [List.append_nil]
    split <;> rfl
  rw [hrun]
  apply getElem?_map_append_quoted _ _ _ _ _ _ h
  intro m; split <;> rfl

/-- The admin delete handler keeps the `quoted_text` of every row. -/
theorem adminDeleteMessage_quoted_text (s : Store) (now messageId : Int) (user : Claims)
    (i : Nat) (m : Message) (h : s.messages[i]? = some m) :
    ((adminDeleteMessage s now messageId user).2.messages[i]?).map (fun m => m.quoted_text) =
      some m.quoted_text := by
  cases hadm : user.is_admin with
  | false => simp [adminDeleteMessage, hadm, h]
  | true =>
    have hrun : (adminDeleteMessage s now messageId user).2.messages =
        s.messages.map (fun (m : Message) =>
          if m.id = messageId then
            { m with message := some "Deleted by admin!", is_edited := true,
                     edited_at := some now }
          else m) ++ [newMessage s.nextMessageId now user.id
            (some "!System: Bir mesaj admin tarafından silindi!") "system" none none] := by
      simp [adminDeleteMessage, hadm, Store.insertMessage]
    rw [hrun]
    apply getElem?_map_append_quoted _ _ _ _ _ _ h
    intro m; split <;> rfl

/-- The `/edit` command keeps the `quoted_text` of every row. -/
theorem editCommand_quoted_text (s : Store) (now : Int) (user : Claims)
    (params : Option CommandParams) (i : Nat) (m : Message) (h : s.messages[i]? = some m) :
    ((adminCommand s now user ⟨some "/edit", params⟩).2.messages[i]?).map
      (fun m => m.quoted_text) = some m.quoted_text := by
  cases hadm : user.is_admin with
  | false => rw [adminCommand_not_admin s now user _ hadm]; simp [h]
  | true =>
    cases params with
    | none =>
      rw [adminCommand_no_params s now user "/edit" hadm (by simp)]
      simp [h]
    | some p =>
      rw [adminCommand_edit s now user p hadm]
      have hrun : (editCommand s now p).2.messages = s.messages.map (fun (m : Message) =>
          if some m.id = p.messageId then
            { m with message := p.newText, is_edited := true, edited_at := some now }
          else m) ++ [] := by
        simp [editCommand]
      rw [hrun]
      apply getElem?_map_append_quoted _ _ _ _ _ _ h
      intro m; split <;> rfl

/-- With the mute query empty the post handler does not answer the mute error. -/
theorem postMessage_not_muted (xp : Int → Nat → List User → List User) (s : Store) (now : Int)
    (user : Claims) (body : PostBody) (hm : muteCheck s now user.id = none) (err : String)
    (muteInfo : UserMute) :
    (postMessage xp s now user body).1 ≠ ⟨403, .muted err muteInfo⟩ := by
  unfold postMessage
  cases hb : banCheck s user.id with
  | some b => simp
  | none =>
    simp only [hm]
    by_cases ht : (!truthy body.message) = true
    · simp [ht]
    · simp [ht]

/-! ## Membership rows under invite and leave -/

/-- A membership request does not touch `Users`. -/
theorem guildStep_users (g : GuildState) (r : GuildRequest) : (guildStep g r).users = g.users := by
  cases r with
  | invite id username =>
    simp only [guildStep, guildInvite]
    split
    · rfl
    · split
      · rfl
      · split <;> rfl
  | join guildId user =>
    simp only [guildStep, guildJoin]
    split <;> rfl
  | leave id user =>
    simp only [guildStep, guildLeave]
    split <;> rfl

/-- An invite keeps the membership rows of every user at one at most. -/
theorem guildInvite_memberships_le (g : GuildState) (id : String) (username : Option String)
    (uid : Int) (h : (membershipsOf g uid).length ≤ 1) :
    (membershipsOf (guildInvite g id username).2 uid).length ≤ 1 := by
  unfold guildInvite
  split
  · exact h
  · split
    · exact h
    · rename_i guildId _ found _
      by_cases hc : (g.guildMembers.filter (fun gm => gm.user_id == found.id)).length > 0
      · simp only [hc, if_true]; exact h
      · simp only [hc, if_false, membershipsOf, List.filter_append]
        by_cases hu : found.id = uid
        · subst hu
          have h0 : (g.guildMembers.filter (fun gm => gm.user_id == found.id)).length = 0 := by
            omega
          simp [List.length_eq_zero.mp h0]
        · simpa [hu, membershipsOf] using h

/-- A leave keeps the membership rows of every user at one at most. -/
theorem guildLeave_memberships_le (g : GuildState) (id : String) (user : Claims)
    (uid : Int) (h : (membershipsOf g uid).length ≤ 1) :
    (membershipsOf (guildLeave g id user).2 uid).length ≤ 1 := by
  unfold guildLeave
  split
  · exact h
  · simp only [membershipsOf, List.filter_filter]
    refine le_trans ?_ h
    unfold membershipsOf
    apply List.Sublist.length_le
    apply List.monotone_filter_right
    intro gm hgm
    simp only [Bool.and_eq_true] at hgm
    exact hgm.1

/-- Sequences of invite and leave requests keep every user in at most one guild. -/
theorem invite_leave_keep_single_guild (g : GuildState) (rs : List GuildRequest)
    (hinv : AtMostOneGuild g) (hrs : ∀ r ∈ rs, r.notJoin = true) :
    AtMostOneGuild (runGuild g rs) := by
  induction rs generalizing g with
  | nil => exact hinv
  | cons r rs ih =>
    apply ih (guildStep g r) _ (fun r2 h2 => hrs r2 (List.mem_cons_of_mem _ h2))
    intro u hu
    rw [guildStep_users] at hu
    have hr := hrs r (List.mem_cons_self _ _)
    cases r with
    | invite id username => exact guildInvite_memberships_le g id username u.id (hinv u hu)
    | join guildId user => simp [GuildRequest.notJoin] at hr
    | leave id user => exact guildLeave_memberships_le g id user u.id (hinv u hu)

/-! ## Listing, quoting and posting -/

/-- A joined row carries one of the joined messages. -/
theorem joinUsers_mem (users : List User) (ms : List Message) (r : MessageRow)
    (h : r ∈ joinUsers users ms) : r.m ∈ ms := by
  unfold joinUsers at h
  rw [List.mem_flatMap] at h
  obtain ⟨m, hm, hr⟩ := h
  rw [List.mem_map] at hr
  obtain ⟨u, _, rfl⟩ := hr
  exact hm

/-- A listed row carries a message of the store that is not deleted. -/
theorem listing_mem (s : Store) (r : MessageRow) (h : r ∈ listing s) :
    r.m ∈ s.messages.filter (fun m => !m.is_deleted) := by
  rw [listing_eq] at h
  have h1 := List.mem_of_mem_take h
  unfold orderByAsc at h1
  have h2 := (List.perm_insertionSort _ _).mem_iff.mp h1
  exact joinUsers_mem _ _ r h2

/-- The quote handler on an original message whose author has a `Users` row. -/
theorem quoteMessage_found (s : Store) (now : Int) (user : Claims) (body : QuoteBody)
    (h : ∃ m ∈ s.messages, some m.id = body.originalMessageId ∧ ∃ u ∈ s.users, u.id = m.user_id) :
    quoteMessage s now user body =
      (⟨200, .quoted s.nextMessageId⟩,
        { s with
          messages := s.messages ++ [newMessage s.nextMessageId now user.id body.newMessage
            defaultMessageType body.quotedText body.originalMessageId],
          nextMessageId := s.nextMessageId + 1 }) := by
  obtain ⟨m, hm, hid, u, hu, huid⟩ := h
  have hne : (joinUsers s.users
      (s.messages.filter (fun m => some m.id == body.originalMessageId))).length ≠ 0 := by
    intro h0
    have hnil := (joinUsers_eq_nil_iff _ _).mp (List.length_eq_zero.mp h0)
    exact hnil m (List.mem_filter.mpr ⟨hm, by simpa using hid⟩) u hu huid
  simp only [quoteMessage, hne, if_false]

/-- When one of the two queries of the post handler returns a row the answer is 403 and the
store is kept. -/
theorem postMessage_blocked (xp : Int → Nat → List User → List User) (s : Store) (now : Int)
    (user : Claims) (body : PostBody)
    (h : banCheck s user.id ≠ none ∨ muteCheck s now user.id ≠ none) :
    (postMessage xp s now user body).1.status = 403 ∧ (postMessage xp s now user body).2 = s := by
  unfold postMessage
  cases hb : banCheck s user.id with
  | some b => simp
  | none =>
    cases hm : muteCheck s now user.id with
    | some m => simp
    | none => simp [hb, hm] at h

/-- The row returned by the mute query is an active, unexpired mute of the user. -/
theorem muteCheck_some (s : Store) (now uid : Int) (m : UserMute)
    (h : muteCheck s now uid = some m) :
    m ∈ s.mutes ∧ m.user_id = some uid ∧ m.is_active = true ∧ now < m.unmute_time := by
  have hm := orderByDesc_head?_mem _ _ m h
  simpa [and_assoc] using hm

/-- When the post handler answers the mute error, the mute is the row of the mute query and
the text carries the rounded-up minutes. -/
theorem postMessage_muted_inv (xp : Int → Nat → List User → List User) (s : Store) (now : Int)
    (user : Claims) (body : PostBody) (err : String) (muteInfo : UserMute)
    (h : (postMessage xp s now user body).1 = ⟨403, .muted err muteInfo⟩) :
    muteCheck s now user.id = some muteInfo ∧
    err = "Hesabınız " ++ toString (ceilDiv (muteInfo.unmute_time - now) 60000)
      ++ " dakika boyunca susturuldu." := by
  unfold postMessage at h
  cases hb : banCheck s user.id with
  | some b => simp [hb] at h
  | none =>
    cases hm : muteCheck s now user.id with
    | some mi =>
      simp only [hb, hm, Response.mk.injEq, Body.muted.injEq, true_and] at h
      obtain ⟨h1, h2⟩ := h
      subst h2
      exact ⟨rfl, h1.symm⟩
    | none =>
      simp only [hb, hm] at h
      by_cases ht : (!truthy body.message) = true
      · simp [ht] at h
      · simp [ht] at h

/-- The value of `ceilDiv x 60000` is the least integer whose multiple of 60000 reaches `x`.
-/
theorem ceilDiv_bounds (x : Int) :
    (ceilDiv x 60000 - 1) * 60000 < x ∧ x ≤ ceilDiv x 60000 * 60000 := by
  unfold ceilDiv
  omega

/-- The mute row appended by the mute batch for a duration inside the range of `sql.Int`. -/
theorem muteCommand_mutes (s : Store) (now : Int) (user : Claims) (params : CommandParams)
    (hlo : sqlIntMin ≤ muteDuration params) (hhi : muteDuration params ≤ sqlIntMax) :
    (muteCommand s now user params).2.mutes =
      s.mutes ++ [newMute now (resolveUser s params.username) user.id
        (muteDuration params) (now + muteDuration params * 60000)] := by
  rw [muteCommand_in_range s now user params hlo hhi]
  simp only [Store.insertMessage]

/-- The users after a post are the users before, or the experience procedure applied to
them. -/
theorem postMessage_users (xp : Int → Nat → List User → List User) (s : Store) (now : Int)
    (user : Claims) (body : PostBody) :
    (postMessage xp s now user body).2.users = s.users ∨
    ∃ messageLength : Nat, (postMessage xp s now user body).2.users =
      xp user.id messageLength s.users := by
  unfold postMessage
  cases banCheck s user.id with
  | some b => exact Or.inl rfl
  | none =>
    cases muteCheck s now user.id with
    | some m => exact Or.inl rfl
    | none =>
      by_cases ht : (!truthy body.message) = true
      · simp only [ht, if_true]; exact Or.inl trivial
      · simp only [ht, if_false]
        exact Or.inr ⟨_, rfl⟩

/-! ## Registration and experience -/

/-- The duplicate query of the register handler returns a row exactly when a user has the
username or the given email. -/
theorem register_check_eq_nil (a : Accounts) (body : RegisterBody) :
    (a.users.filter (fun u =>
      u.username == body.username || (body.email.isSome && u.email == body.email))).length > 0 ↔
    ∃ u ∈ a.users, u.username = body.username ∨
      (∃ e : String, body.email = some e ∧ u.email = some e) := by
  rw [gt_iff_lt, List.length_pos_iff_exists_mem]
  constructor
  · rintro ⟨u, hu⟩
    obtain ⟨hmem, hp⟩ := List.mem_filter.mp hu
    refine ⟨u, hmem, ?_⟩
    simp only [Bool.or_eq_true, beq_iff_eq, Bool.and_eq_true] at hp
    rcases hp with h | ⟨h1, h2⟩
    · exact Or.inl h
    · obtain ⟨e, he⟩ := Option.isSome_iff_exists.mp h1
      exact Or.inr ⟨e, he, by rw [h2, he]⟩
  · rintro ⟨u, hmem, h⟩
    refine ⟨u, List.mem_filter.mpr ⟨hmem, ?_⟩⟩
    simp only [Bool.or_eq_true, beq_iff_eq, Bool.and_eq_true]
    rcases h with h | ⟨e, he, hu⟩
    · exact Or.inl h
    · exact Or.inr ⟨by simp [he], by rw [he, hu]⟩

/-- The experience procedure keeps every row at its position, with its id, and never lowers
its experience or level. -/
theorem updateUserExperience_getElem? (gain : Nat → Nat) (scale : Int → Int) (userId : Int)
    (messageLength : Nat) (users : List User) (i : Nat) (u : User) (h : users[i]? = some u) :
    ∃ u2, (updateUserExperience gain scale userId messageLength users)[i]? = some u2 ∧
      u2.id = u.id ∧ u.experience ≤ u2.experience ∧ u.level ≤ u2.level := by
  unfold updateUserExperience
  rw [List.getElem?_map, h]
  simp only [Option.map_some', Option.some.injEq, exists_eq_left']
  by_cases hid : u.id = userId
  · by_cases hx : u.experience + (gain messageLength : Int) ≥ u.next_level_xp
    · simp only [hid, hx, if_true]
      exact ⟨trivial, by omega, by omega⟩
    · simp only [hid, hx, if_true, if_false]
      exact ⟨trivial, by omega, le_refl _⟩
  · simp only [hid, if_false]
    exact ⟨trivial, le_refl _, le_refl _⟩

/-! ## The tag loop -/

/-- The loop keeps the current tag when every remaining tag asks for more than the level. -/
theorem tagLoop_stop (userLevel : Int) (l : List Tag) (acc : Tag)
    (h : ∀ t ∈ l, userLevel < t.required_level) : tagLoop userLevel l acc = acc := by
  cases l with
  | nil => rfl
  | cons t rest =>
    have ht := h t (List.mem_cons_self _ _)
    have : ¬ userLevel ≥ t.required_level := by omega
    simp only [tagLoop, this, if_false]

/-- On tags in ascending order, one of which the level reaches, the loop ends on a tag with
the greatest level reached. -/
theorem tagLoop_greatest (userLevel : Int) (l : List Tag) (acc : Tag)
    (hs : l.Pairwise (fun a b => a.required_level ≤ b.required_level))
    (hex : ∃ t ∈ l, t.required_level ≤ userLevel) :
    tagLoop userLevel l acc ∈ l ∧
    (tagLoop userLevel l acc).required_level ≤ userLevel ∧
    ∀ t ∈ l, t.required_level ≤ userLevel →
      t.required_level ≤ (tagLoop userLevel l acc).required_level := by
  induction l generalizing acc with
  | nil => obtain ⟨t, ht, _⟩ := hex; simp at ht
  | cons a rest ih =>
    obtain ⟨hall, hrest⟩ := List.pairwise_cons.mp hs
    have ha : userLevel ≥ a.required_level := by
      obtain ⟨t, ht, hle⟩ := hex
      rcases List.mem_cons.mp ht with rfl | hmem
      · exact hle
      · have := hall t hmem
        omega
    simp only [tagLoop, ha, if_true]
    by_cases hex2 : ∃ t ∈ rest, t.required_level ≤ userLevel
    · obtain ⟨h1, h2, h3⟩ := ih a hrest hex2
      refine ⟨List.mem_cons_of_mem _ h1, h2, ?_⟩
      intro t ht hle
      rcases List.mem_cons.mp ht with rfl | hmem
      · exact hall _ h1
      · exact h3 t hmem hle
    · have hstop : tagLoop userLevel rest a = a := by
        apply tagLoop_stop
        intro t ht
        by_contra hc
        exact hex2 ⟨t, ht, by omega⟩
      rw [hstop]
      refine ⟨List.mem_cons_self _ _, ha, ?_⟩
      intro t ht hle
      rcases List.mem_cons.mp ht with rfl | hmem
      · exact le_refl _
      · exact absurd ⟨t, hmem, hle⟩ hex2

/-- On a non-empty list `determineTag` runs the loop over the sorted tags from the first of
them. -/
theorem determineTag_cons (t : Tag) (ts : List Tag) (userLevel : Option Int) :
    ∃ first rest, orderByAsc (fun tag : Tag => tag.required_level) (t :: ts) = first :: rest ∧
      determineTag (some (t :: ts)) userLevel =
        .listed (tagLoop (effectiveLevel userLevel) (first :: rest) first) := by
  cases hs : orderByAsc (fun tag : Tag => tag.required_level) (t :: ts) with
  | nil =>
    have hlen : (orderByAsc (fun tag : Tag => tag.required_level) (t :: ts)).length
        = (t :: ts).length := List.length_insertionSort _ _
    rw [hs] at hlen
    simp at hlen
  | cons first rest =>
    refine ⟨first, rest, rfl, ?_⟩
    simp only [determineTag, hs]

/-- Sorting keeps the rows. -/
theorem orderByAsc_mem {α : Type} (key : α → Int) (rows : List α) (a : α) :
    a ∈ orderByAsc key rows ↔ a ∈ rows :=
  (List.perm_insertionSort _ rows).mem_iff

/-- A level of 1 or more is used as it is. -/
theorem effectiveLevel_of_pos (level : Int) (h : 1 ≤ level) :
    effectiveLevel (some level) = level := by
  have h1 : ¬ (level = 0 ∨ level < 1) := by omega
  simp only [effectiveLevel, h1, if_false]

/-- For a level of 1 or more that reaches some tag, `determineTag` answers a tag of the list
with the greatest level reached. -/
theorem determineTag_greatest (tags : List Tag) (level : Int) (hlevel : 1 ≤ level)
    (hex : ∃ t ∈ tags, t.required_level ≤ level) :
    ∃ tag, determineTag (some tags) (some level) = .listed tag ∧ tag ∈ tags ∧
      tag.required_level ≤ level ∧
      ∀ t ∈ tags, t.required_level ≤ level → t.required_level ≤ tag.required_level := by
  cases tags with
  | nil => obtain ⟨t, ht, _⟩ := hex; simp at ht
  | cons t ts =>
    obtain ⟨first, rest, hs, hd⟩ := determineTag_cons t ts (some level)
    rw [effectiveLevel_of_pos level hlevel] at hd
    have hsorted := orderByAsc_sorted (fun tag : Tag => tag.required_level) (t :: ts)
    rw [hs] at hsorted
    have hex2 : ∃ x ∈ first :: rest, x.required_level ≤ level := by
      obtain ⟨x, hx, hle⟩ := hex
      refine ⟨x, ?_, hle⟩
      rw [← hs]
      exact (orderByAsc_mem _ _ x).mpr hx
    obtain ⟨h1, h2, h3⟩ := tagLoop_greatest level (first :: rest) first hsorted hex2
    refine ⟨_, hd, ?_, h2, ?_⟩
    · exact (orderByAsc_mem (fun tag : Tag => tag.required_level) (t :: ts) _).mp
        (by rw [hs]; exact h1)
    · intro x hx hle
      apply h3 x _ hle
      rw [← hs]
      exact (orderByAsc_mem _ _ x).mpr hx

/-! ## Claims -/

/-- Claim C1: if the user has a ban row with `is_active = 1`, or a mute row with `is_active
= 1` and `now < unmute_time`, then `POST /api/messages` answers 403 whatever the body is (a
missing or empty message included) and leaves the store unchanged: no message is inserted
and the experience procedure, whatever it is, is not run. -/
theorem post_rejects_blocked (xp : Int → Nat → List User → List User) (s : Store) (now : Int)
    (user : Claims) (body : PostBody)
    (h : (∃ b ∈ s.bans, b.user_id = user.id ∧ b.is_active = true) ∨
      (∃ m ∈ s.mutes, m.user_id = some user.id ∧ m.is_active = true ∧ now < m.unmute_time)) :
    (postMessage xp s now user body).1.status = 403 ∧
      (postMessage xp s now user body).2 = s := by
  unfold postMessage
  cases hb : banCheck s user.id with
  | some b => simp
  | none =>
    cases hm : muteCheck s now user.id with
    | some m => simp
    | none =>
      exfalso
      rw [banCheck_eq_none] at hb
      rw [muteCheck_eq_none] at hm
      rcases h with ⟨b, hbm, hb2⟩ | ⟨m, hmm, hm2⟩
      · exact hb b hbm hb2
      · exact hm m hmm hm2

/-- Witness of C1: the banned sample member posting a body without a message. -/
theorem post_rejects_blocked_witness :
    ((∃ b ∈ bannedStore.bans, b.user_id = aliceClaims.id ∧ b.is_active = true) ∨
      (∃ m ∈ bannedStore.mutes, m.user_id = some aliceClaims.id ∧ m.is_active = true ∧
        (3000 : Int) < m.unmute_time)) ∧
    (postMessage sampleXp bannedStore 3000 aliceClaims ⟨none, none⟩).1.status = 403 ∧
      (postMessage sampleXp bannedStore 3000 aliceClaims ⟨none, none⟩).2 = bannedStore :=
  have h : (∃ b ∈ bannedStore.bans, b.user_id = aliceClaims.id ∧ b.is_active = true) ∨
      (∃ m ∈ bannedStore.mutes, m.user_id = some aliceClaims.id ∧ m.is_active = true ∧
        (3000 : Int) < m.unmute_time) :=
    Or.inl ⟨newBan 2000 2 1 (some "spam"), by decide, by decide⟩
  ⟨h, post_rejects_blocked sampleXp bannedStore 3000 aliceClaims ⟨none, none⟩ h⟩

/-- Claim C2: for an admin caller and a username resolving to a user, `/ban` with a reason
appends an active ban row of that user issued by the admin with the reason, sets `is_online`
of the user to 0, sets the body of every message of the user to `User Banned!`, leaves the
other messages as they are and appends one `system` message of the admin announcing the ban.
-/
theorem ban_effects (s : Store) (now : Int) (admin : Claims) (params : CommandParams)
    (name reason : String) (userId : Int)
    (hadmin : admin.is_admin = true) (hname : params.username = some name)
    (hreason : params.reason = some reason) (hres : resolveUser s (some name) = some userId) :
    (adminCommand s now admin ⟨some "/ban", some params⟩).1 =
      ⟨200, .message (name ++ " banlandı")⟩ ∧
    (adminCommand s now admin ⟨some "/ban", some params⟩).2.bans =
      s.bans ++ [{ user_id := userId, banned_by := admin.id, reason := some reason,
                   ban_date := now, is_active := true, unban_date := none }] ∧
    (adminCommand s now admin ⟨some "/ban", some params⟩).2.users =
      s.users.map (fun u => if u.id = userId then { u with is_online := false } else u) ∧
    (adminCommand s now admin ⟨some "/ban", some params⟩).2.messages =
      s.messages.map (fun m =>
        if m.user_id = userId then { m with message := some "User Banned!" } else m) ++
      [{ id := s.nextMessageId, user_id := admin.id,
         message := some ("!System: " ++ name ++ " banlandı! Sebep: " ++ reason),
         message_type := "system", created_at := now, is_deleted := false, is_edited := false,
         edited_at := none, reactions := none, quoted_text := none,
         quoted_message_id := none }] := by
  rw [adminCommand_ban s now admin params hadmin]
  unfold banCommand
  rw [hname, hres]
  simp [hreason, Store.insertMessage, newBan, newMessage, sqlConcat, jsStr]

/-- Witness of C2: the sample admin bans `alice` for spam. -/
theorem ban_effects_witness :
    (adminCommand sampleStore 2000 rootClaims
      ⟨some "/ban", some { username := some "alice", reason := some "spam" }⟩).1 =
      ⟨200, .message ("alice" ++ " banlandı")⟩ ∧
    (adminCommand sampleStore 2000 rootClaims
      ⟨some "/ban", some { username := some "alice", reason := some "spam" }⟩).2.bans =
      sampleStore.bans ++ [newBan 2000 2 rootClaims.id (some "spam")] :=
  have h := ban_effects sampleStore 2000 rootClaims
    { username := some "alice", reason := some "spam" } "alice" "spam" 2 rfl rfl rfl (by decide)
  ⟨h.1, h.2.1⟩

/-- Claim C3, amended: starting from a store in which every user has at most one ban row
with `is_active = 1`, after every finite sequence of `/ban` and `/unban` requests in which
no `/ban` names a user who has an active ban when it runs, every user still has at most one
ban row with `is_active = 1`. -/
theorem guarded_moderation_keeps_single_ban (s : Store) (rs : List ModRequest)
    (hinv : AtMostOneActiveBan s) (hg : bansOnlyUnbanned s rs = true) :
    AtMostOneActiveBan (runModeration s rs) := by
  induction rs generalizing s with
  | nil => exact hinv
  | cons r rs ih =>
    simp only [bansOnlyUnbanned, Bool.and_eq_true] at hg
    apply ih (modStep s r) _ hg.2
    rw [atMostOneActiveBan_iff] at hinv ⊢
    intro uid huid
    rw [modStep_users_ids] at huid
    apply modStep_activeBans_le s r uid _ (hinv uid huid)
    simp only [bansOnlyUnbanned, Bool.and_true]
    exact hg.1

/-- Witness of C3, amended: ban, unban and ban again of `alice`. -/
theorem guarded_moderation_keeps_single_ban_witness :
    AtMostOneActiveBan sampleStore ∧
    bansOnlyUnbanned sampleStore
      [⟨2000, rootClaims, .ban "alice" "spam"⟩, ⟨3000, rootClaims, .unban "alice"⟩,
        ⟨4000, rootClaims, .ban "alice" "again"⟩] = true ∧
    AtMostOneActiveBan (runModeration sampleStore
      [⟨2000, rootClaims, .ban "alice" "spam"⟩, ⟨3000, rootClaims, .unban "alice"⟩,
        ⟨4000, rootClaims, .ban "alice" "again"⟩]) :=
  have hinv : AtMostOneActiveBan sampleStore := by
    intro u _; simp [activeBans, sampleStore]
  ⟨hinv, by decide, guarded_moderation_keeps_single_ban sampleStore _ hinv (by decide)⟩

/-- Counterexample to C3 as stated: the sample store has no ban row, and after two `/ban`
requests for `alice` she has two ban rows with `is_active = 1`. -/
theorem double_ban_two_active :
    AtMostOneActiveBan sampleStore ∧
    ¬ AtMostOneActiveBan (runModeration sampleStore
      [⟨2000, rootClaims, .ban "alice" "spam"⟩, ⟨3000, rootClaims, .ban "alice" "again"⟩]) := by
  refine ⟨by intro u _; simp [activeBans, sampleStore], ?_⟩
  intro h
  have h2 := h (sampleUser 2 "alice" false |> fun u => { u with is_online := false }) (by decide)
  revert h2
  decide

/-- Claim C4: when the username resolves to a user with an active ban, `/unban` by an admin
succeeds, the most recent active ban of the user (the row the post handler reports) is
deactivated with `unban_date` set to the time of the request, one `system` message is
appended, no ban row of the user is active afterwards, and a later post of the user with a
non-empty body and no mute in effect is answered 201. -/
theorem unban_effects (xp : Int → Nat → List User → List User) (s : Store) (now : Int)
    (admin : Claims) (params : CommandParams) (name : String) (userId : Int)
    (hadmin : admin.is_admin = true) (hname : params.username = some name)
    (hres : resolveUser s (some name) = some userId)
    (hban : ∃ b ∈ s.bans, b.user_id = userId ∧ b.is_active = true) :
    (adminCommand s now admin ⟨some "/unban", some params⟩).1 =
      ⟨200, .message (name ++ " kullanıcısının banı kaldırıldı")⟩ ∧
    (∃ (recent : UserBan) (i : Nat), banCheck s userId = some recent ∧ s.bans[i]? = some recent ∧
      (adminCommand s now admin ⟨some "/unban", some params⟩).2.bans[i]? =
        some { recent with is_active := false, unban_date := some now }) ∧
    (adminCommand s now admin ⟨some "/unban", some params⟩).2.messages =
      s.messages ++
      [{ id := s.nextMessageId, user_id := admin.id,
         message := some ("!System: " ++ name ++ " kullanıcısının banı kaldırıldı!"),
         message_type := "system", created_at := now, is_deleted := false, is_edited := false,
         edited_at := none, reactions := none, quoted_text := none,
         quoted_message_id := none }] ∧
    (∀ b ∈ (adminCommand s now admin ⟨some "/unban", some params⟩).2.bans,
      ¬ (b.user_id = userId ∧ b.is_active = true)) ∧
    (∀ (later : Int) (user : Claims) (body : PostBody) (msg : String),
      user.id = userId → body.message = some msg → msg ≠ "" →
      (∀ m ∈ (adminCommand s now admin ⟨some "/unban", some params⟩).2.mutes,
        ¬ (m.user_id = some userId ∧ m.is_active = true ∧ later < m.unmute_time)) →
      (postMessage xp (adminCommand s now admin ⟨some "/unban", some params⟩).2 later user
        body).1.status = 201) := by
  have hany : (s.bans.any (fun b => b.user_id == userId && b.is_active)) = true := by
    obtain ⟨b, hb, h1, h2⟩ := hban
    exact List.any_eq_true.mpr ⟨b, hb, by simp [h1, h2]⟩
  have hrun : adminCommand s now admin ⟨some "/unban", some params⟩ =
      (⟨200, .message (name ++ " kullanıcısının banı kaldırıldı")⟩,
        ({ s with bans := s.bans.map (fun (b : UserBan) =>
            if b.user_id = userId ∧ b.is_active = true then
              { b with is_active := false, unban_date := some now } else b) } : Store).insertMessage
          now admin.id (some ("!System: " ++ name ++ " kullanıcısının banı kaldırıldı!"))
          "system") := by
    rw [adminCommand_unban s now admin params hadmin]
    unfold unbanCommand
    rw [hname, hres]
    simp [hany, sqlConcat, jsStr]
  have hnone : ∀ b ∈ (adminCommand s now admin ⟨some "/unban", some params⟩).2.bans,
      ¬ (b.user_id = userId ∧ b.is_active = true) := by
    rw [hrun]
    simp only [Store.insertMessage, List.mem_map]
    rintro b ⟨b0, _, rfl⟩
    by_cases hc : b0.user_id = userId ∧ b0.is_active = true
    · simp [hc]
    · simp [hc]
  refine ⟨by rw [hrun], ?_, by rw [hrun]; simp [Store.insertMessage, newMessage], hnone, ?_⟩
  · cases hrec : banCheck s userId with
    | none =>
      obtain ⟨b, hb, h12⟩ := hban
      exact absurd h12 ((banCheck_eq_none s userId).mp hrec b hb)
    | some recent =>
      obtain ⟨hmem, h1, h2⟩ := banCheck_some s userId recent hrec
      obtain ⟨i, hi⟩ := List.getElem?_of_mem hmem
      refine ⟨recent, i, rfl, hi, ?_⟩
      rw [hrun]
      simp [Store.insertMessage, List.getElem?_map, hi, h1, h2]
  · intro later user body msg hid hmsg hne hmute
    apply postMessage_unblocked xp _ later user body msg _ _ hmsg hne
    · rw [banCheck_eq_none, hid]; exact hnone
    · rw [muteCheck_eq_none, hid]; exact hmute

/-- Witness of C4: `alice` is unbanned and posts again. -/
theorem unban_effects_witness :
    (adminCommand bannedStore 3000 rootClaims ⟨some "/unban", some { username := some "alice" }⟩).1 =
      ⟨200, .message ("alice" ++ " kullanıcısının banı kaldırıldı")⟩ ∧
    (postMessage sampleXp (adminCommand bannedStore 3000 rootClaims
        ⟨some "/unban", some { username := some "alice" }⟩).2 4000 aliceClaims
        ⟨some "hi", none⟩).1.status = 201 :=
  have h := unban_effects sampleXp bannedStore 3000 rootClaims { username := some "alice" }
    "alice" 2 rfl rfl (by decide) ⟨newBan 2000 2 1 (some "spam"), by decide, by decide⟩
  ⟨h.1, h.2.2.2.2 4000 aliceClaims ⟨some "hi", none⟩ "hi" rfl rfl (by decide) (by decide)⟩

/-- Claim C5: for a user without an active ban and a body with a non-empty message, `POST
/api/messages` answers the mute error exactly when some mute row of the user has `is_active
= 1` and `now < unmute_time`; once `unmute_time <= now` for every active mute of the user
the post is answered 201, with no `/unmute`. -/
theorem post_muted_iff (xp : Int → Nat → List User → List User) (s : Store) (now : Int)
    (user : Claims) (body : PostBody) (msg : String)
    (hban : ∀ b ∈ s.bans, ¬ (b.user_id = user.id ∧ b.is_active = true))
    (hmsg : body.message = some msg) (hne : msg ≠ "") :
    ((∃ err muteInfo, (postMessage xp s now user body).1 = ⟨403, .muted err muteInfo⟩) ↔
      ∃ m ∈ s.mutes, m.user_id = some user.id ∧ m.is_active = true ∧ now < m.unmute_time) ∧
    ((∀ m ∈ s.mutes, m.user_id = some user.id → m.is_active = true → m.unmute_time ≤ now) →
      (postMessage xp s now user body).1.status = 201) := by
  have hb := (banCheck_eq_none s user.id).mpr hban
  constructor
  · constructor
    · rintro ⟨err, muteInfo, h⟩
      by_contra hno
      have hm : muteCheck s now user.id = none := by
        rw [muteCheck_eq_none]
        intro m hmem hc
        exact hno ⟨m, hmem, hc⟩
      have := postMessage_unblocked xp s now user body msg hb hm hmsg hne
      rw [h] at this
      simp at this
    · rintro ⟨m, hmem, hc⟩
      cases hm : muteCheck s now user.id with
      | none => exact absurd hc ((muteCheck_eq_none s now user.id).mp hm m hmem)
      | some mi =>
        exact ⟨_, mi, congrArg Prod.fst (postMessage_muted xp s now user body mi hb hm)⟩
  · intro hall
    have hm : muteCheck s now user.id = none := by
      rw [muteCheck_eq_none]
      rintro m hmem ⟨h1, h2, h3⟩
      exact absurd h3 (not_lt.mpr (hall m hmem h1 h2))
    exact postMessage_unblocked xp s now user body msg hb hm hmsg hne

/-- Witness of C5: `alice`, muted for one minute until 62000, posts at 70000. -/
theorem post_muted_iff_witness :
    ((∃ err muteInfo, (postMessage sampleXp mutedStore 70000 aliceClaims ⟨some "hi", none⟩).1
        = ⟨403, .muted err muteInfo⟩) ↔
      ∃ m ∈ mutedStore.mutes, m.user_id = some aliceClaims.id ∧ m.is_active = true ∧
        (70000 : Int) < m.unmute_time) ∧
    ((∀ m ∈ mutedStore.mutes, m.user_id = some aliceClaims.id → m.is_active = true →
        m.unmute_time ≤ (70000 : Int)) →
      (postMessage sampleXp mutedStore 70000 aliceClaims ⟨some "hi", none⟩).1.status = 201) :=
  post_muted_iff sampleXp mutedStore 70000 aliceClaims ⟨some "hi", none⟩ "hi"
    (by decide) rfl (by decide)

/-- Claim C6, amended: for a message whose stored reaction array holds the pair of the user
and the emoji at most once, two react requests in succession leave an array that is a
rearrangement of the stored one, hence equal to it as a set of pairs. -/
theorem react_twice_restores (s : Store) (messageId : Int) (user : Claims) (reaction : String)
    (rs : List Reaction) (hcur : currentReactions s messageId = some rs)
    (hcount : rs.count ⟨user.id, reaction⟩ ≤ 1) :
    ∃ rs2, currentReactions
        (react (react s messageId user reaction).2 messageId user reaction).2 messageId
          = some rs2 ∧
      rs2.Perm rs ∧ ∀ p : Reaction, p ∈ rs2 ↔ p ∈ rs := by
  obtain ⟨_, h2⟩ := react_current s messageId user reaction rs hcur
  obtain ⟨_, h4⟩ := react_current _ messageId user reaction _ h2
  have hperm : (toggleReaction (toggleReaction rs user.id reaction) user.id reaction).Perm rs := by
    by_cases hmem : (⟨user.id, reaction⟩ : Reaction) ∈ rs
    · have hnot : (⟨user.id, reaction⟩ : Reaction) ∉ rs.erase ⟨user.id, reaction⟩ := by
        intro h
        have h1 := List.count_pos_iff.mpr h
        rw [List.count_erase_self] at h1
        omega
      rw [toggleReaction_eq rs, if_pos hmem, toggleReaction_eq, if_neg hnot]
      exact (List.perm_append_comm.trans (List.perm_cons_erase hmem).symm)
    · have hin : (⟨user.id, reaction⟩ : Reaction) ∈ rs ++ [⟨user.id, reaction⟩] := by simp
      rw [toggleReaction_eq rs, if_neg hmem, toggleReaction_eq, if_pos hin,
        List.erase_append_right _ hmem]
      simp
  exact ⟨_, h4, hperm, fun p => hperm.mem_iff⟩

/-- Witness of C6, amended: `alice` reacts twice to a message without reactions. -/
theorem react_twice_restores_witness :
    ∃ rs2, currentReactions (react (react sampleStore 1 aliceClaims "+1").2 1 aliceClaims "+1").2 1
          = some rs2 ∧
      rs2.Perm [] ∧ ∀ p : Reaction, p ∈ rs2 ↔ p ∈ [] :=
  react_twice_restores sampleStore 1 aliceClaims "+1" [] (by decide) (by decide)

/-- Counterexample to C6 as stated: on a stored array holding the same pair twice, two react
requests remove both occurrences, so the pair is in the set before and not after. -/
theorem react_twice_drops_doubled :
    currentReactions doubledReactionStore 1 = some [⟨2, "+1"⟩, ⟨2, "+1"⟩] ∧
    currentReactions
      (react (react doubledReactionStore 1 aliceClaims "+1").2 1 aliceClaims "+1").2 1 = some [] ∧
    ¬ (∀ p : Reaction, p ∈ ([] : List Reaction) ↔ p ∈ [(⟨2, "+1"⟩ : Reaction), ⟨2, "+1"⟩]) := by
  refine ⟨by decide, by decide, ?_⟩
  intro h
  exact absurd ((h ⟨2, "+1"⟩).mpr (by simp)) (by simp)

/-- Claim C7: when the stored reaction array of a message has no duplicate pair, the array
after a react request (the one answered and stored) has no duplicate pair, holds the pair of
the user and the emoji exactly when the stored one did not, and holds every other pair
exactly when the stored one did. -/
theorem react_toggles (s : Store) (messageId : Int) (user : Claims) (reaction : String)
    (rs : List Reaction) (hcur : currentReactions s messageId = some rs) (hnd : rs.Nodup) :
    ∃ rs1, currentReactions (react s messageId user reaction).2 messageId = some rs1 ∧
      (react s messageId user reaction).1 = ⟨200, .reacted rs1⟩ ∧
      rs1.Nodup ∧
      ((⟨user.id, reaction⟩ : Reaction) ∈ rs1 ↔ (⟨user.id, reaction⟩ : Reaction) ∉ rs) ∧
      ∀ p : Reaction, p ≠ ⟨user.id, reaction⟩ → (p ∈ rs1 ↔ p ∈ rs) := by
  obtain ⟨h1, h2⟩ := react_current s messageId user reaction rs hcur
  refine ⟨_, h2, h1, ?_, ?_, ?_⟩
  · rw [toggleReaction_eq]
    by_cases hmem : (⟨user.id, reaction⟩ : Reaction) ∈ rs
    · simp only [hmem, if_true]; exact hnd.erase _
    · simp only [hmem, if_false]
      exact List.nodup_append.mpr ⟨hnd, List.nodup_singleton _, by simpa using hmem⟩
  · rw [toggleReaction_eq]
    by_cases hmem : (⟨user.id, reaction⟩ : Reaction) ∈ rs
    · simp only [hmem, if_true, not_true, iff_false]
      intro h
      exact ((List.Nodup.mem_erase_iff hnd).mp h).1 rfl
    · simp [hmem]
  · intro p hp
    rw [toggleReaction_eq]
    by_cases hmem : (⟨user.id, reaction⟩ : Reaction) ∈ rs
    · simp only [hmem, if_true]; exact List.mem_erase_of_ne hp
    · simp [hmem, hp]

/-- Witness of C7: `alice` reacts to a message without reactions. -/
theorem react_toggles_witness :
    ∃ rs1, currentReactions (react sampleStore 1 aliceClaims "+1").2 1 = some rs1 ∧
      (react sampleStore 1 aliceClaims "+1").1 = ⟨200, .reacted rs1⟩ ∧
      rs1.Nodup ∧
      ((⟨aliceClaims.id, "+1"⟩ : Reaction) ∈ rs1 ↔ (⟨aliceClaims.id, "+1"⟩ : Reaction) ∉ []) ∧
      ∀ p : Reaction, p ≠ ⟨aliceClaims.id, "+1"⟩ → (p ∈ rs1 ↔ p ∈ []) :=
  react_toggles sampleStore 1 aliceClaims "+1" [] (by decide) List.nodup_nil

/-- Claim C8: for a caller whose token does not carry `is_admin = true`,
`POST /api/admin/command` answers 403 and leaves the store unchanged, for every
command (unknown or missing ones included) and every `params` (missing ones
included). -/
theorem admin_required (s : Store) (now : Int) (user : Claims) (body : CommandBody)
    (h : user.is_admin = false) :
    (adminCommand s now user body).1 = ⟨403, .error "Admin yetkisi gerekli"⟩ ∧
    (adminCommand s now user body).2 = s := by
  rw [adminCommand_not_admin s now user body h]
  exact ⟨rfl, rfl⟩

/-- Witness of C8: the sample member sends an unknown command without `params`. -/
theorem admin_required_witness :
    aliceClaims.is_admin = false ∧
    (adminCommand sampleStore 5000 aliceClaims ⟨some "/shutdown", none⟩).1 =
      ⟨403, .error "Admin yetkisi gerekli"⟩ ∧
    (adminCommand sampleStore 5000 aliceClaims ⟨some "/shutdown", none⟩).2 = sampleStore :=
  ⟨rfl, admin_required sampleStore 5000 aliceClaims ⟨some "/shutdown", none⟩ rfl⟩

/-- Claim C9, evaluated on a store with 101 visible messages created at times
1000 to 1100: `GET /api/messages` answers the 100 messages created at 1000 to
1099 in ascending order, not the 100 latest in descending order, and the
latest message is not among them. -/
theorem getMessages_returns_oldest :
    (longStore.messages.filter (fun m => !m.is_deleted)).length = 101 ∧
    (listing longStore).map (fun r => r.m.created_at) =
      (List.range 100).map (fun i => 1000 + (i : Int)) ∧
    (listing longStore).map (fun r => r.m.created_at) ≠
      (List.range 100).map (fun i => 1100 - (i : Int)) ∧
    (1100 : Int) ∉ (listing longStore).map (fun r => r.m.created_at) := by
  decide

/-- Claim C10: after an admin runs `/clear`, `GET /api/messages` answers an empty list,
while the `Messages` table has as many rows as before: every row is kept, with `is_deleted =
1`. -/
theorem clear_empties_listing (s : Store) (now : Int) (user : Claims)
    (params : Option CommandParams) (h : user.is_admin = true) :
    (getMessages (adminCommand s now user ⟨some "/clear", params⟩).2).1 = ⟨200, .rows []⟩ ∧
    (adminCommand s now user ⟨some "/clear", params⟩).2.messages.length = s.messages.length ∧
    (adminCommand s now user ⟨some "/clear", params⟩).2.messages =
      s.messages.map (fun m => { m with is_deleted := true }) := by
  rw [adminCommand_clear s now user params h]
  refine ⟨?_, ?_, rfl⟩
  · have : (List.map (fun m => { m with is_deleted := true }) s.messages).filter
        (fun m : Message => !m.is_deleted) = [] := by
      rw [List.filter_eq_nil_iff]
      simp
    simp [getMessages, clearCommand, this, joinUsers, orderByAsc]
  · simp [clearCommand]

/-- Witness of C10: the sample admin clears the sample store. -/
theorem clear_empties_listing_witness :
    rootClaims.is_admin = true ∧
    (getMessages (adminCommand sampleStore 5000 rootClaims ⟨some "/clear", none⟩).2).1
      = ⟨200, .rows []⟩ ∧
    (adminCommand sampleStore 5000 rootClaims ⟨some "/clear", none⟩).2.messages.length
      = sampleStore.messages.length ∧
    (adminCommand sampleStore 5000 rootClaims ⟨some "/clear", none⟩).2.messages =
      sampleStore.messages.map (fun m => { m with is_deleted := true }) :=
  ⟨rfl, clear_empties_listing sampleStore 5000 rootClaims none rfl⟩

/-- Claim C11: `DELETE /api/messages/:id` answers success exactly when a message with the id
exists whose author is the requester; otherwise it answers 404 and leaves the store
unchanged; in both cases each row is kept as it is unless it has the id and the requester as
author, in which case its `is_deleted` flag is set, and no other table is touched. -/
theorem soft_delete_own (s : Store) (messageId : Int) (user : Claims) :
    ((deleteMessage s messageId user).1 = ⟨200, .message "Mesaj başarıyla silindi"⟩ ↔
      ∃ m ∈ s.messages, m.id = messageId ∧ m.user_id = user.id) ∧
    ((¬ ∃ m ∈ s.messages, m.id = messageId ∧ m.user_id = user.id) →
      deleteMessage s messageId user =
        (⟨404, .error "Mesaj bulunamadı veya silme yetkisi yok"⟩, s)) ∧
    (∀ (i : Nat) (m : Message), s.messages[i]? = some m →
      (deleteMessage s messageId user).2.messages[i]? =
        some (if m.id = messageId ∧ m.user_id = user.id then { m with is_deleted := true }
          else m)) ∧
    (deleteMessage s messageId user).2.messages.length = s.messages.length ∧
    (deleteMessage s messageId user).2.users = s.users ∧
    (deleteMessage s messageId user).2.bans = s.bans ∧
    (deleteMessage s messageId user).2.mutes = s.mutes := by
  have hzero : (s.messages.filter (fun m => m.id == messageId && m.user_id == user.id)).length = 0
      ↔ ¬ ∃ m ∈ s.messages, m.id = messageId ∧ m.user_id = user.id := by
    rw [List.length_eq_zero, List.filter_eq_nil_iff]
    simp
  refine ⟨?_, ?_, ?_, ?_, ?_, ?_, ?_⟩
  · by_cases h : ∃ m ∈ s.messages, m.id = messageId ∧ m.user_id = user.id
    · have h0 := (not_congr hzero).mpr (not_not.mpr h)
      simp only [deleteMessage, h0, if_false, h]
    · have h0 := hzero.mpr h
      simp only [deleteMessage, h0, if_true, h, iff_false]
      simp
  · intro h
    have h0 := hzero.mpr h
    have hmap : s.messages.map (fun (m : Message) =>
        if m.id = messageId ∧ m.user_id = user.id then { m with is_deleted := true } else m)
        = s.messages := by
      apply map_eq_self_of_forall
      intro m hm
      have : ¬ (m.id = messageId ∧ m.user_id = user.id) := fun hc => h ⟨m, hm, hc⟩
      simp only [this, if_false]
    simp only [deleteMessage, h0, if_true, hmap]
  · intro i m hi
    rw [deleteMessage_messages]
    simp only [List.getElem?_map, hi, Option.map_some']
  · rw [deleteMessage_messages]; simp
  · rw [deleteMessage_messages]
  · rw [deleteMessage_messages]
  · rw [deleteMessage_messages]


/-- Witness of C11: `alice` deletes her message; the admin, who is not its author, gets 404. -/
theorem soft_delete_own_witness :
    (deleteMessage sampleStore 1 aliceClaims).1 = ⟨200, .message "Mesaj başarıyla silindi"⟩ ∧
    deleteMessage sampleStore 1 rootClaims =
      (⟨404, .error "Mesaj bulunamadı veya silme yetkisi yok"⟩, sampleStore) :=
  ⟨(soft_delete_own sampleStore 1 aliceClaims).1.mpr
      ⟨newMessage 1 1000 2 (some "hello") "text" none none, by decide, by decide⟩,
    (soft_delete_own sampleStore 1 rootClaims).2.1 (by decide)⟩

/-- Claim C12: for an admin caller `DELETE /api/admin/messages/:id` sets the body of the
message with the id to `Deleted by admin!`, sets `is_edited` and `edited_at`, keeps its
`is_deleted` flag and every other message as they are and appends one `system` message; for
a caller without `is_admin` it answers 403 and changes nothing. -/
theorem admin_redacts_message (s : Store) (now : Int) (messageId : Int) (user : Claims) :
    (user.is_admin = true →
      (adminDeleteMessage s now messageId user).1 = ⟨200, .message "Mesaj silindi"⟩ ∧
      (adminDeleteMessage s now messageId user).2.messages =
        s.messages.map (fun m =>
          if m.id = messageId then
            { m with message := some "Deleted by admin!", is_edited := true,
                     edited_at := some now }
          else m) ++
        [newMessage s.nextMessageId now user.id
          (some "!System: Bir mesaj admin tarafından silindi!") "system" none none] ∧
      (∀ (i : Nat) (m : Message), s.messages[i]? = some m →
        ∃ m2, (adminDeleteMessage s now messageId user).2.messages[i]? = some m2 ∧
          m2.is_deleted = m.is_deleted ∧
          (m.id = messageId → m2.message = some "Deleted by admin!" ∧ m2.is_edited = true ∧
            m2.edited_at = some now) ∧
          (m.id ≠ messageId → m2 = m)) ∧
      (adminDeleteMessage s now messageId user).2.messages.length = s.messages.length + 1) ∧
    (user.is_admin = false →
      adminDeleteMessage s now messageId user = (⟨403, .error "Yetkiniz yok"⟩, s)) := by
  constructor
  · intro hadmin
    have hrun : adminDeleteMessage s now messageId user =
        (⟨200, .message "Mesaj silindi"⟩,
          ({ s with messages := s.messages.map (fun (m : Message) =>
              if m.id = messageId then
                { m with message := some "Deleted by admin!", is_edited := true,
                         edited_at := some now }
              else m) } : Store).insertMessage now user.id
            (some "!System: Bir mesaj admin tarafından silindi!") "system") := by
      simp [adminDeleteMessage, hadmin]
    rw [hrun]
    refine ⟨rfl, rfl, ?_, ?_⟩
    · intro i m hi
      have hlt : i < (s.messages.map (fun (m : Message) =>
              if m.id = messageId then
                { m with message := some "Deleted by admin!", is_edited := true,
                         edited_at := some now }
              else m)).length := by
        rw [List.length_map]
        exact (List.getElem?_eq_some_iff.mp hi).1
      simp only [Store.insertMessage]
      rw [List.getElem?_append_left hlt, List.getElem?_map, hi]
      by_cases hid : m.id = messageId
      · exact ⟨{ m with message := some "Deleted by admin!", is_edited := true,
                            edited_at := some now },
          by simp only [Option.map_some', hid, if_true], rfl,
          fun _ => ⟨rfl, rfl, rfl⟩, fun h => absurd hid h⟩
      · exact ⟨m, by simp only [Option.map_some', hid, if_false], rfl,
          fun h => absurd h hid, fun _ => rfl⟩
    · simp [Store.insertMessage]
  · intro h
    simp [adminDeleteMessage, h]

/-- Witness of C12: the sample admin redacts message 1; `alice` is refused. -/
theorem admin_redacts_message_witness :
    (adminDeleteMessage sampleStore 5000 1 rootClaims).1 = ⟨200, .message "Mesaj silindi"⟩ ∧
    adminDeleteMessage sampleStore 5000 1 aliceClaims = (⟨403, .error "Yetkiniz yok"⟩, sampleStore) :=
  ⟨((admin_redacts_message sampleStore 5000 1 rootClaims).1 rfl).1,
    (admin_redacts_message sampleStore 5000 1 aliceClaims).2 rfl⟩

/-- Claim C13: `/unban` throws the user-not-found error when the username resolves to no
user, and the not-banned error when the user has no ban row with `is_active = 1`; in both
cases the request fails with status 500 and the store is unchanged. -/
theorem unban_failures (s : Store) (now : Int) (admin : Claims) (params : CommandParams)
    (hadmin : admin.is_admin = true) :
    (resolveUser s params.username = none →
      commandThrows s ⟨some "/unban", some params⟩ = some "Kullanıcı bulunamadı" ∧
      adminCommand s now admin ⟨some "/unban", some params⟩ =
        (⟨500, .error "Kullanıcı bulunamadı"⟩, s)) ∧
    (∀ userId : Int, resolveUser s params.username = some userId →
      (∀ b ∈ s.bans, ¬ (b.user_id = userId ∧ b.is_active = true)) →
      commandThrows s ⟨some "/unban", some params⟩ = some "Kullanıcı zaten banlı değil" ∧
      (adminCommand s now admin ⟨some "/unban", some params⟩).1.status = 500 ∧
      (adminCommand s now admin ⟨some "/unban", some params⟩).2 = s) := by
  constructor
  · intro hres
    have ht : commandThrows s ⟨some "/unban", some params⟩ = some "Kullanıcı bulunamadı" := by
      rw [commandThrows_unban, hres]
    refine ⟨ht, ?_⟩
    rw [adminCommand_throws s now admin _ _ hadmin ht]
    simp [commandError]
  · intro userId hres hno
    have hany : (s.bans.any (fun b => b.user_id == userId && b.is_active)) = false := by
      rw [List.any_eq_false]
      intro b hb
      have := hno b hb
      simpa using this
    have ht : commandThrows s ⟨some "/unban", some params⟩ =
        some "Kullanıcı zaten banlı değil" := by
      rw [commandThrows_unban, hres]
      simp [hany]
    refine ⟨ht, ?_⟩
    rw [adminCommand_throws s now admin _ _ hadmin ht]
    exact ⟨rfl, rfl⟩

/-- Witness of C13: `/unban` of the unknown `bob` and of `alice`, who is not banned. -/
theorem unban_failures_witness :
    (commandThrows sampleStore ⟨some "/unban", some { username := some "bob" }⟩ =
        some "Kullanıcı bulunamadı" ∧
      adminCommand sampleStore 3000 rootClaims ⟨some "/unban", some { username := some "bob" }⟩ =
        (⟨500, .error "Kullanıcı bulunamadı"⟩, sampleStore)) ∧
    (commandThrows sampleStore ⟨some "/unban", some { username := some "alice" }⟩ =
        some "Kullanıcı zaten banlı değil" ∧
      (adminCommand sampleStore 3000 rootClaims
        ⟨some "/unban", some { username := some "alice" }⟩).1.status = 500 ∧
      (adminCommand sampleStore 3000 rootClaims
        ⟨some "/unban", some { username := some "alice" }⟩).2 = sampleStore) :=
  ⟨(unban_failures sampleStore 3000 rootClaims { username := some "bob" } rfl).1 (by decide),
    (unban_failures sampleStore 3000 rootClaims { username := some "alice" } rfl).2 2
      (by decide) (by decide)⟩

/-- Claim C14, amended: whenever an error with message `msg` is thrown while an admin
command is handled, the response has status 500; its error text is `msg` when `msg` is the
user-not-found text, and the fixed text `Komut işlenirken hata oluştu` for every other
message. -/
theorem command_failure_text (s : Store) (now : Int) (admin : Claims) (body : CommandBody)
    (msg : String) (hadmin : admin.is_admin = true)
    (hfail : commandThrows s body = some msg) :
    (adminCommand s now admin body).1 =
      ⟨500, .error (if msg = "Kullanıcı bulunamadı" then msg
        else "Komut işlenirken hata oluştu")⟩ := by
  rw [adminCommand_throws s now admin body msg hadmin hfail]
  unfold commandError
  by_cases h : msg = "Kullanıcı bulunamadı"
  · simp [h]
  · simp [h]

/-- Witness of C14, amended: `/unban` of the unknown `bob`. -/
theorem command_failure_text_witness :
    commandThrows sampleStore ⟨some "/unban", some { username := some "bob" }⟩ =
      some "Kullanıcı bulunamadı" ∧
    (adminCommand sampleStore 3000 rootClaims
      ⟨some "/unban", some { username := some "bob" }⟩).1 =
      ⟨500, .error (if "Kullanıcı bulunamadı" = "Kullanıcı bulunamadı" then "Kullanıcı bulunamadı"
        else "Komut işlenirken hata oluştu")⟩ :=
  ⟨by decide, command_failure_text sampleStore 3000 rootClaims
    ⟨some "/unban", some { username := some "bob" }⟩ "Kullanıcı bulunamadı" rfl (by decide)⟩

/-- Counterexample to C14 as stated: `/unban` of `alice`, who is not banned, throws
`Kullanıcı zaten banlı değil`, and the response carries the fixed text instead of it. -/
theorem unban_not_banned_generic_text :
    commandThrows sampleStore ⟨some "/unban", some { username := some "alice" }⟩ =
      some "Kullanıcı zaten banlı değil" ∧
    (adminCommand sampleStore 3000 rootClaims
      ⟨some "/unban", some { username := some "alice" }⟩).1 =
      ⟨500, .error "Komut işlenirken hata oluştu"⟩ ∧
    (adminCommand sampleStore 3000 rootClaims
      ⟨some "/unban", some { username := some "alice" }⟩).1 ≠
      ⟨500, .error "Kullanıcı zaten banlı değil"⟩ := by
  decide

/-- Claim C15: for an admin caller and a command string outside the seven known commands the
handler answers 400 and leaves the store unchanged, whatever `params` is. -/
theorem unknown_command_rejected (s : Store) (now : Int) (user : Claims) (command : String)
    (params : Option CommandParams) (hadmin : user.is_admin = true)
    (hcmd : command ∉ ["/ban", "/unban", "/mute", "/unmute", "/clear", "/edit", "/announce"]) :
    adminCommand s now user ⟨some command, params⟩ = (⟨400, .error "Geçersiz komut"⟩, s) := by
  simp only [List.mem_cons, List.mem_singleton, List.not_mem_nil, or_false, not_or] at hcmd
  obtain ⟨h1, h2, h3, h4, h5, h6, h7⟩ := hcmd
  simp [adminCommand, hadmin, h1, h2, h3, h4, h5, h6, h7]

/-- Witness of C15: the sample admin sends `/kick`. -/
theorem unknown_command_rejected_witness :
    adminCommand sampleStore 3000 rootClaims ⟨some "/kick", some { username := some "alice" }⟩ =
      (⟨400, .error "Geçersiz komut"⟩, sampleStore) :=
  unknown_command_rejected sampleStore 3000 rootClaims "/kick" _ rfl (by decide)

/-- Claim C16, amended: the duration of `/mute` is the parsed integer value of
`params.duration` when that value is not 0, and 5 minutes when `params.duration` cannot be
parsed or parses to 0.  When the duration lies outside the range of `sql.Int` the command
fails with status 500 and nothing is recorded.  When it lies inside the range and the issue
time plus the duration in minutes is a `datetime`, the command succeeds and records a mute of
that duration whose expiry is the issue time plus the duration in minutes, and one `system`
message naming the user and the duration is appended. -/
theorem mute_effects (s : Store) (now : Int) (admin : Claims) (params : CommandParams)
    (name : String) (hadmin : admin.is_admin = true) (hname : params.username = some name) :
    ∃ duration : Int,
      ((parseInt params.duration = some duration ∧ duration ≠ 0) ∨
        ((parseInt params.duration = none ∨ parseInt params.duration = some 0) ∧ duration = 5)) ∧
      ((duration < sqlIntMin ∨ sqlIntMax < duration) →
        adminCommand s now admin ⟨some "/mute", some params⟩ =
          (⟨500, .error "Komut işlenirken hata oluştu"⟩, s)) ∧
      (sqlIntMin ≤ duration → duration ≤ sqlIntMax →
        isDatetime (now + duration * 60000) = true →
        (adminCommand s now admin ⟨some "/mute", some params⟩).1 =
          ⟨200, .message (name ++ " susturuldu")⟩ ∧
        (adminCommand s now admin ⟨some "/mute", some params⟩).2.mutes =
          s.mutes ++ [{ user_id := resolveUser s (some name), muted_by := admin.id,
                        duration_minutes := duration, mute_time := now,
                        unmute_time := now + duration * 60000, is_active := true }] ∧
        (adminCommand s now admin ⟨some "/mute", some params⟩).2.messages =
          s.messages ++ [newMessage s.nextMessageId now admin.id
            (some ("!System: " ++ name ++ " " ++ toString duration ++ " dakika susturuldu!"))
            "system" none none]) := by
  rw [adminCommand_mute s now admin params hadmin]
  refine ⟨muteDuration params, muteDuration_cases params, fun hout => ?_, fun hlo hhi _ => ?_⟩
  · rw [muteCommand_out_of_range s now admin params hout, commandError_validationFailed]
  · rw [muteCommand_in_range s now admin params hlo hhi, hname]
    exact ⟨by simp [jsStr], by simp [Store.insertMessage, newMute],
      by simp [Store.insertMessage, sqlConcat]⟩

/-- Witness of C16, amended: a ten-minute mute of `alice`, which lies inside the range of
`sql.Int` and expires at a `datetime`, so that the mute and the message are recorded. -/
theorem mute_effects_witness :
    (∃ duration : Int,
      ((parseInt (some "10") = some duration ∧ duration ≠ 0) ∨
        ((parseInt (some "10") = none ∨ parseInt (some "10") = some 0) ∧ duration = 5)) ∧
      ((duration < sqlIntMin ∨ sqlIntMax < duration) →
        adminCommand sampleStore 2000 rootClaims
          ⟨some "/mute", some { username := some "alice", duration := some "10" }⟩ =
          (⟨500, .error "Komut işlenirken hata oluştu"⟩, sampleStore)) ∧
      (sqlIntMin ≤ duration → duration ≤ sqlIntMax →
        isDatetime (2000 + duration * 60000) = true →
        (adminCommand sampleStore 2000 rootClaims
          ⟨some "/mute", some { username := some "alice", duration := some "10" }⟩).1 =
          ⟨200, .message ("alice" ++ " susturuldu")⟩ ∧
        (adminCommand sampleStore 2000 rootClaims
          ⟨some "/mute", some { username := some "alice", duration := some "10" }⟩).2.mutes =
          sampleStore.mutes ++ [newMute 2000 (resolveUser sampleStore (some "alice"))
            rootClaims.id duration (2000 + duration * 60000)] ∧
        (adminCommand sampleStore 2000 rootClaims
          ⟨some "/mute", some { username := some "alice", duration := some "10" }⟩).2.messages =
          sampleStore.messages ++ [newMessage sampleStore.nextMessageId 2000 rootClaims.id
            (some ("!System: " ++ "alice" ++ " " ++ toString duration ++ " dakika susturuldu!"))
            "system" none none])) ∧
    (parseInt (some "10") = some 10 ∧ sqlIntMin ≤ 10 ∧ 10 ≤ sqlIntMax ∧
      isDatetime (2000 + 10 * 60000) = true ∧
      (adminCommand sampleStore 2000 rootClaims
        ⟨some "/mute", some { username := some "alice", duration := some "10" }⟩).1 =
        ⟨200, .message "alice susturuldu"⟩ ∧
      (adminCommand sampleStore 2000 rootClaims
        ⟨some "/mute", some { username := some "alice", duration := some "10" }⟩).2.mutes =
        [newMute 2000 (some 2) 1 10 602000]) :=
  ⟨mute_effects sampleStore 2000 rootClaims { username := some "alice", duration := some "10" }
    "alice" rfl rfl, by decide⟩

/-- Counterexample to C16 as stated: the duration `0` parses to the integer 0, and the
recorded mute lasts 5 minutes. -/
theorem mute_zero_records_five :
    parseInt (some "0") = some 0 ∧
    (adminCommand sampleStore 2000 rootClaims
      ⟨some "/mute", some { username := some "alice", duration := some "0" }⟩).2.mutes =
      [{ user_id := some 2, muted_by := 1, duration_minutes := 5, mute_time := 2000,
         unmute_time := 302000, is_active := true }] := by
  decide

/-- Claim C17: when the username resolves to a user, `/unmute` by an admin succeeds, leaves
no mute row of that user with `is_active = 1`, keeps every other mute row as it is, appends
one `system` message, and no later post of the user is answered with the mute error; when
the username resolves to no user it fails with the user-not-found error and the store is
unchanged. -/
theorem unmute_effects (xp : Int → Nat → List User → List User) (s : Store) (now : Int)
    (admin : Claims) (params : CommandParams) (hadmin : admin.is_admin = true) :
    (∀ (name : String) (userId : Int), params.username = some name →
      resolveUser s (some name) = some userId →
      (adminCommand s now admin ⟨some "/unmute", some params⟩).1 =
        ⟨200, .message (name ++ " susturulması kaldırıldı")⟩ ∧
      (∀ m ∈ (adminCommand s now admin ⟨some "/unmute", some params⟩).2.mutes,
        ¬ (m.user_id = some userId ∧ m.is_active = true)) ∧
      (∀ (i : Nat) (m : UserMute), s.mutes[i]? = some m →
        (adminCommand s now admin ⟨some "/unmute", some params⟩).2.mutes[i]? =
          some (if m.user_id = some userId ∧ m.is_active = true then
            { m with is_active := false, unmute_time := now } else m)) ∧
      (adminCommand s now admin ⟨some "/unmute", some params⟩).2.mutes.length = s.mutes.length ∧
      (adminCommand s now admin ⟨some "/unmute", some params⟩).2.messages =
        s.messages ++ [newMessage s.nextMessageId now admin.id
          (some ("!System: " ++ name ++ " susturulması kaldırıldı!")) "system" none none] ∧
      (∀ (later : Int) (user : Claims) (body : PostBody) (err : String) (muteInfo : UserMute),
        user.id = userId →
        (postMessage xp (adminCommand s now admin ⟨some "/unmute", some params⟩).2 later user
          body).1 ≠ ⟨403, .muted err muteInfo⟩)) ∧
    (resolveUser s params.username = none →
      adminCommand s now admin ⟨some "/unmute", some params⟩ =
        (⟨500, .error "Kullanıcı bulunamadı"⟩, s)) := by
  rw [adminCommand_unmute s now admin params hadmin]
  constructor
  · intro name userId hname hres
    have hrun : unmuteCommand s now admin params =
        (⟨200, .message (name ++ " susturulması kaldırıldı")⟩,
          ({ s with mutes := s.mutes.map (fun (m : UserMute) =>
              if m.user_id = some userId ∧ m.is_active = true then
                { m with is_active := false, unmute_time := now } else m) } : Store).insertMessage
            now admin.id (some ("!System: " ++ name ++ " susturulması kaldırıldı!"))
            "system") := by
      unfold unmuteCommand
      rw [hname, hres]
      simp [sqlConcat, jsStr]
    have hnone : ∀ m ∈ (unmuteCommand s now admin params).2.mutes,
        ¬ (m.user_id = some userId ∧ m.is_active = true) := by
      rw [hrun]
      simp only [Store.insertMessage, List.mem_map]
      rintro m ⟨m0, _, rfl⟩
      by_cases hc : m0.user_id = some userId ∧ m0.is_active = true
      · simp [hc]
      · simp [hc]
    refine ⟨by rw [hrun], hnone, ?_, ?_, ?_, ?_⟩
    · intro i m hi
      rw [hrun]
      simp only [Store.insertMessage, List.getElem?_map, hi, Option.map_some']
    · rw [hrun]; simp [Store.insertMessage]
    · rw [hrun]; simp [Store.insertMessage]
    · intro later user body err muteInfo hid
      apply postMessage_not_muted
      rw [muteCheck_eq_none, hid]
      intro m hm hc
      exact hnone m hm ⟨hc.1, hc.2.1⟩
  · intro hres
    unfold unmuteCommand
    rw [hres]
    simp [commandError]

/-- Witness of C17: `alice` is unmuted and posts; `/unmute` of the unknown `bob` fails. -/
theorem unmute_effects_witness :
    (adminCommand mutedStore 5000 rootClaims
      ⟨some "/unmute", some { username := some "alice" }⟩).1 =
        ⟨200, .message ("alice" ++ " susturulması kaldırıldı")⟩ ∧
    (postMessage sampleXp (adminCommand mutedStore 5000 rootClaims
      ⟨some "/unmute", some { username := some "alice" }⟩).2 6000 aliceClaims
        ⟨some "hi", none⟩).1 ≠ ⟨403, .muted "" (newMute 2000 (some 2) 1 1 62000)⟩ ∧
    adminCommand mutedStore 5000 rootClaims ⟨some "/unmute", some { username := some "bob" }⟩ =
      (⟨500, .error "Kullanıcı bulunamadı"⟩, mutedStore) :=
  have h := (unmute_effects sampleXp mutedStore 5000 rootClaims { username := some "alice" }
    rfl).1 "alice" 2 rfl (by decide)
  ⟨h.1, h.2.2.2.2.2 6000 aliceClaims ⟨some "hi", none⟩ "" _ rfl,
    (unmute_effects sampleXp mutedStore 5000 rootClaims { username := some "bob" } rfl).2
      (by decide)⟩

/-- Claim C18: for every admin caller and every store, stores in which the caller has an
active ban or a mute in effect included, `/announce` appends exactly one message authored by
the caller with type `announcement` and body `params.message` and changes nothing else. -/
theorem announce_effects (s : Store) (now : Int) (admin : Claims) (params : CommandParams)
    (hadmin : admin.is_admin = true) :
    adminCommand s now admin ⟨some "/announce", some params⟩ =
      (⟨200, .message "Duyuru yapıldı"⟩,
        { s with
          messages := s.messages ++
            [newMessage s.nextMessageId now admin.id params.message "announcement" none none],
          nextMessageId := s.nextMessageId + 1 }) := by
  rw [adminCommand_announce s now admin params hadmin]
  rfl

/-- Witness of C18: the sample admin, banned and muted, is refused by the post handler and
still announces. -/
theorem announce_effects_witness :
    (postMessage sampleXp blockedRootStore 3000 rootClaims ⟨some "news", none⟩).1.status = 403 ∧
    adminCommand blockedRootStore 3000 rootClaims
        ⟨some "/announce", some { message := some "news" }⟩ =
      (⟨200, .message "Duyuru yapıldı"⟩,
        { blockedRootStore with
          messages := blockedRootStore.messages ++
            [newMessage blockedRootStore.nextMessageId 3000 rootClaims.id (some "news")
              "announcement" none none],
          nextMessageId := blockedRootStore.nextMessageId + 1 }) :=
  ⟨by decide, announce_effects blockedRootStore 3000 rootClaims { message := some "news" } rfl⟩

/-- Claim C19: `POST /api/messages/quote` answers 404 and inserts nothing when no message
has the id `originalMessageId`; when such a message exists (and its author has a `Users`
row, which the existence query joins) it appends one message authored by the caller with
body `newMessage`, `quoted_message_id = originalMessageId` and `quoted_text = quotedText`,
and a later `/edit`, admin delete or delete request, for any id and caller, leaves that
`quoted_text` as it is. -/
theorem quote_effects (s : Store) (now : Int) (user : Claims) (body : QuoteBody) :
    ((∀ m ∈ s.messages, some m.id ≠ body.originalMessageId) →
      quoteMessage s now user body = (⟨404, .error "Alıntılanacak mesaj bulunamadı"⟩, s)) ∧
    ((∃ m ∈ s.messages, some m.id = body.originalMessageId ∧ ∃ u ∈ s.users, u.id = m.user_id) →
      (quoteMessage s now user body).1 = ⟨200, .quoted s.nextMessageId⟩ ∧
      (quoteMessage s now user body).2.messages =
        s.messages ++ [newMessage s.nextMessageId now user.id body.newMessage "text"
          body.quotedText body.originalMessageId] ∧
      ∀ (later originalId : Int) (caller : Claims) (params : Option CommandParams),
        (((adminCommand (quoteMessage s now user body).2 later caller
            ⟨some "/edit", params⟩).2.messages[s.messages.length]?).map
              (fun m => m.quoted_text) = some body.quotedText) ∧
        (((adminDeleteMessage (quoteMessage s now user body).2 later originalId
            caller).2.messages[s.messages.length]?).map
              (fun m => m.quoted_text) = some body.quotedText) ∧
        (((deleteMessage (quoteMessage s now user body).2 originalId
            caller).2.messages[s.messages.length]?).map
              (fun m => m.quoted_text) = some body.quotedText)) := by
  constructor
  · intro hno
    have hfil : s.messages.filter (fun m => some m.id == body.originalMessageId) = [] := by
      rw [List.filter_eq_nil_iff]
      intro m hm
      simpa using hno m hm
    simp [quoteMessage, hfil, joinUsers]
  · rintro ⟨m, hm, hid, u, hu, huid⟩
    have hne : (joinUsers s.users
        (s.messages.filter (fun m => some m.id == body.originalMessageId))).length ≠ 0 := by
      intro h0
      have hnil := (joinUsers_eq_nil_iff _ _).mp (List.length_eq_zero.mp h0)
      exact hnil m (List.mem_filter.mpr ⟨hm, by simpa using hid⟩) u hu huid
    have hrun : quoteMessage s now user body =
        (⟨200, .quoted s.nextMessageId⟩,
          { s with
            messages := s.messages ++ [newMessage s.nextMessageId now user.id body.newMessage
              defaultMessageType body.quotedText body.originalMessageId],
            nextMessageId := s.nextMessageId + 1 }) := by
      simp only [quoteMessage, hne, if_false]
    have hlast : (quoteMessage s now user body).2.messages[s.messages.length]? =
        some (newMessage s.nextMessageId now user.id body.newMessage
              defaultMessageType body.quotedText body.originalMessageId) := by
      rw [hrun]; simp
    refine ⟨by rw [hrun], by rw [hrun]; rfl, ?_⟩
    intro later originalId caller params
    exact ⟨editCommand_quoted_text _ later caller params _ _ hlast,
      adminDeleteMessage_quoted_text _ later originalId caller _ _ hlast,
      deleteMessage_quoted_text _ originalId caller _ _ hlast⟩

/-- Witness of C19: `alice` quotes a missing message, then message 1, which the admin
redacts afterwards. -/
theorem quote_effects_witness :
    quoteMessage sampleStore 3000 aliceClaims ⟨some 7, some "hello", some "agreed"⟩ =
      (⟨404, .error "Alıntılanacak mesaj bulunamadı"⟩, sampleStore) ∧
    (quoteMessage sampleStore 3000 aliceClaims ⟨some 1, some "hello", some "agreed"⟩).1 =
      ⟨200, .quoted sampleStore.nextMessageId⟩ ∧
    ((adminDeleteMessage (quoteMessage sampleStore 3000 aliceClaims
        ⟨some 1, some "hello", some "agreed"⟩).2 4000 1
          rootClaims).2.messages[sampleStore.messages.length]?).map
            (fun m => m.quoted_text) = some (some "hello") :=
  have h := (quote_effects sampleStore 3000 aliceClaims ⟨some 1, some "hello", some "agreed"⟩).2
    ⟨newMessage 1 1000 2 (some "hello") "text" none none, by decide, by decide,
      sampleUser 2 "alice" false, by decide, by decide⟩
  ⟨(quote_effects sampleStore 3000 aliceClaims ⟨some 7, some "hello", some "agreed"⟩).1
      (by decide),
    h.1, (h.2.2 4000 1 rootClaims none).2.1⟩

/-- Claim C20, evaluated on a state in which `alice` is a member of guild 1 only: an invite
of `alice` to guild 2 is refused, but her join request for guild 2 succeeds and leaves her
with two membership rows. -/
theorem join_second_guild :
    AtMostOneGuild sampleGuilds ∧
    (guildInvite sampleGuilds "2" (some "alice")).1 =
      ⟨400, .error "User is already a member of a guild"⟩ ∧
    (guildJoin sampleGuilds 2 aliceClaims).1 = ⟨200, .message "Successfully joined guild"⟩ ∧
    membershipsOf (runGuild sampleGuilds [.join 2 aliceClaims]) 2 = [⟨1, 2⟩, ⟨2, 2⟩] ∧
    ¬ AtMostOneGuild (runGuild sampleGuilds [.join 2 aliceClaims]) := by
  refine ⟨?_, by decide, by decide, by decide, ?_⟩
  · intro u hu
    have : u = sampleUser 1 "root" true ∨ u = sampleUser 2 "alice" false := by
      simpa [sampleGuilds, sampleStore] using hu
    rcases this with rfl | rfl <;> decide
  · intro h
    have h2 := h (sampleUser 2 "alice" false) (by decide)
    revert h2
    decide

/-- Claim C21: `GET /api/messages` answers rows of messages of the store, none of which has
`is_deleted` set, at most 100 of them, and leaves the store as it is. -/
theorem listing_hides_deleted (s : Store) :
    (getMessages s).1 = ⟨200, .rows (listing s)⟩ ∧
    (∀ r ∈ listing s, r.m.is_deleted = false) ∧
    (∀ r ∈ listing s, r.m ∈ s.messages) ∧
    (listing s).length ≤ 100 ∧
    (getMessages s).2 = s := by
  refine ⟨rfl, ?_, ?_, ?_, rfl⟩
  · intro r hr
    have := (List.mem_filter.mp (listing_mem s r hr)).2
    simpa using this
  · intro r hr
    exact (List.mem_filter.mp (listing_mem s r hr)).1
  · rw [listing_eq]
    exact List.length_take_le _ _


/-- Witness of C21: the listing of the sample store. -/
theorem listing_hides_deleted_witness :
    (listing sampleStore).length ≤ 100 ∧ (getMessages sampleStore).2 = sampleStore :=
  ⟨(listing_hides_deleted sampleStore).2.2.2.1, (listing_hides_deleted sampleStore).2.2.2.2⟩

/-- Claim C22: for a non-empty tag list and a level of 1 or more that reaches at least one
tag, `determineTag` answers a tag of the list whose `required_level` is at most the level
and is the greatest `required_level` among the tags the level reaches; for every reordering
of the list the answered tag has the same `required_level`. -/
theorem tag_by_level (tags : List Tag) (level : Int) (hne : tags ≠ []) (hlevel : 1 ≤ level)
    (hex : ∃ t ∈ tags, t.required_level ≤ level) :
    (∃ tag, determineTag (some tags) (some level) = .listed tag ∧ tag ∈ tags ∧
      tag.required_level ≤ level ∧
      ∀ t ∈ tags, t.required_level ≤ level → t.required_level ≤ tag.required_level) ∧
    (∀ reordered : List Tag, reordered.Perm tags →
      ∃ tag other, determineTag (some tags) (some level) = .listed tag ∧
        determineTag (some reordered) (some level) = .listed other ∧
        other.required_level = tag.required_level) := by
  have _ := hne
  have hmain := determineTag_greatest tags level hlevel hex
  refine ⟨hmain, ?_⟩
  intro reordered hperm
  have hex2 : ∃ t ∈ reordered, t.required_level ≤ level := by
    obtain ⟨t, ht, hle⟩ := hex
    exact ⟨t, hperm.mem_iff.mpr ht, hle⟩
  obtain ⟨tag, hd, hmem, hle, hmax⟩ := hmain
  obtain ⟨other, hd2, hmem2, hle2, hmax2⟩ := determineTag_greatest reordered level hlevel hex2
  refine ⟨tag, other, hd, hd2, ?_⟩
  have h1 := hmax other (hperm.mem_iff.mp hmem2) hle2
  have h2 := hmax2 tag (hperm.mem_iff.mpr hmem) hle
  omega

/-- Witness of C22: level 7 on the three sample tags. -/
theorem tag_by_level_witness :
    (∃ tag, determineTag (some sampleTags) (some 7) = .listed tag ∧ tag ∈ sampleTags ∧
      tag.required_level ≤ 7 ∧
      ∀ t ∈ sampleTags, t.required_level ≤ 7 → t.required_level ≤ tag.required_level) ∧
    (∀ reordered : List Tag, reordered.Perm sampleTags →
      ∃ tag other, determineTag (some sampleTags) (some 7) = .listed tag ∧
        determineTag (some reordered) (some 7) = .listed other ∧
        other.required_level = tag.required_level) :=
  tag_by_level sampleTags 7 (by decide) (by decide) ⟨⟨"Regular", "#0000ff", 5⟩, by decide, by decide⟩

/-- Claim C23: `POST /api/auth/register` answers 400 exactly when some existing user has the
username or the given email, and then leaves the `Users` table as it is; otherwise it
answers 201 and appends exactly one user with the username, the email, the hashed password
and, as `display_name`, the given one or the username when none is given. -/
theorem register_duplicate_iff (hash : String → String) (defaults : User) (a : Accounts)
    (body : RegisterBody) :
    ((register hash defaults a body).1.status = 400 ↔
      ∃ u ∈ a.users, u.username = body.username ∨
        (∃ e : String, body.email = some e ∧ u.email = some e)) ∧
    ((∃ u ∈ a.users, u.username = body.username ∨
        (∃ e : String, body.email = some e ∧ u.email = some e)) →
      register hash defaults a body =
        (⟨400, .error "Bu kullanıcı adı veya email zaten kullanımda"⟩, a)) ∧
    ((¬ ∃ u ∈ a.users, u.username = body.username ∨
        (∃ e : String, body.email = some e ∧ u.email = some e)) →
      (register hash defaults a body).1.status = 201 ∧
      ∃ row : User, (register hash defaults a body).2.users = a.users ++ [row] ∧
        row.id = a.nextUserId ∧ row.username = body.username ∧ row.email = body.email ∧
        row.password = hash body.password ∧
        (body.display_name = none → row.display_name = some body.username) ∧
        (∀ d : String, body.display_name = some d → d ≠ "" → row.display_name = some d)) := by
  have hdup := register_check_eq_nil a body
  by_cases h : ∃ u ∈ a.users, u.username = body.username ∨
        (∃ e : String, body.email = some e ∧ u.email = some e)
  · have hpos := hdup.mpr h
    have hrun : register hash defaults a body =
        (⟨400, .error "Bu kullanıcı adı veya email zaten kullanımda"⟩, a) := by
      simp only [register, hpos, if_true]
    refine ⟨?_, fun _ => hrun, fun hn => absurd h hn⟩
    rw [hrun]
    exact ⟨fun _ => h, fun _ => rfl⟩
  · have hneg : ¬ (a.users.filter (fun u =>
        u.username == body.username || (body.email.isSome && u.email == body.email))).length > 0 :=
      fun hp => h (hdup.mp hp)
    have hstatus : (register hash defaults a body).1.status = 201 := by
      simp only [register, hneg, if_false]
    refine ⟨?_, fun hy => absurd hy h, fun _ => ⟨hstatus, ?_⟩⟩
    · rw [hstatus]
      exact ⟨fun hc => by simp at hc, fun hy => absurd hy h⟩
    · simp only [register, hneg, if_false]
      refine ⟨_, rfl, rfl, rfl, rfl, rfl, ?_, ?_⟩
      · intro hd
        simp [hd, truthy]
      · intro d hd hne
        simp [hd, truthy, hne]

/-- Witness of C23: registering `alice` again is refused, registering `bob` succeeds. -/
theorem register_duplicate_iff_witness :
    register (fun p => "h:" ++ p) defaultUser sampleAccounts ⟨"alice", "pw", none, none⟩ =
      (⟨400, .error "Bu kullanıcı adı veya email zaten kullanımda"⟩, sampleAccounts) ∧
    (register (fun p => "h:" ++ p) defaultUser sampleAccounts
      ⟨"bob", "pw", some "bob@example.org", none⟩).1.status = 201 :=
  ⟨(register_duplicate_iff _ defaultUser sampleAccounts ⟨"alice", "pw", none, none⟩).2.1
      ⟨sampleUser 2 "alice" false, by decide, Or.inl rfl⟩,
    ((register_duplicate_iff _ defaultUser sampleAccounts
      ⟨"bob", "pw", some "bob@example.org", none⟩).2.2 (by decide)).1⟩

/-- Claim C24: with the experience procedure of the spec, after every sequence of post
requests of one user each user row is still at its position with an experience and a level
that are at least what they were before. -/
theorem experience_monotone (gain : Nat → Nat) (scale : Int → Int) (s : Store) (user : Claims)
    (posts : List (Int × PostBody)) (i : Nat) (u : User) (h : s.users[i]? = some u) :
    ∃ u2, (runPosts (updateUserExperience gain scale) s user posts).users[i]? = some u2 ∧
      u2.id = u.id ∧ u.experience ≤ u2.experience ∧ u.level ≤ u2.level := by
  induction posts generalizing s u with
  | nil => exact ⟨u, h, rfl, le_refl _, le_refl _⟩
  | cons p rest ih =>
    simp only [runPosts]
    have hstep : ∃ u1, (postMessage (updateUserExperience gain scale) s p.1 user p.2).2.users[i]?
        = some u1 ∧ u1.id = u.id ∧ u.experience ≤ u1.experience ∧ u.level ≤ u1.level := by
      rcases postMessage_users (updateUserExperience gain scale) s p.1 user p.2 with hu | ⟨len, hu⟩
      · rw [hu]; exact ⟨u, h, rfl, le_refl _, le_refl _⟩
      · rw [hu]; exact updateUserExperience_getElem? gain scale user.id len s.users i u h
    obtain ⟨u1, h1, hid1, hx1, hl1⟩ := hstep
    obtain ⟨u2, h2, hid2, hx2, hl2⟩ := ih _ u1 h1
    exact ⟨u2, h2, hid2.trans hid1, le_trans hx1 hx2, le_trans hl1 hl2⟩

/-- Witness of C24: two posts of `alice`. -/
theorem experience_monotone_witness :
    ∃ u2, (runPosts (updateUserExperience (fun n => n) (fun l => 100 * l)) sampleStore aliceClaims
        [(3000, ⟨some "hello", none⟩), (4000, ⟨some "again", none⟩)]).users[1]? = some u2 ∧
      u2.id = (sampleUser 2 "alice" false).id ∧
      (sampleUser 2 "alice" false).experience ≤ u2.experience ∧
      (sampleUser 2 "alice" false).level ≤ u2.level :=
  experience_monotone (fun n => n) (fun l => 100 * l) sampleStore aliceClaims
    [(3000, ⟨some "hello", none⟩), (4000, ⟨some "again", none⟩)] 1 (sampleUser 2 "alice" false)
    (by decide)

/-- Claim C25: when `POST /api/messages` answers the mute error, the minutes in its text are
the ceiling of `(unmute_time - now) / 60000`; they are at least 1, and at most
`duration_minutes` when the mute was issued no later than `now` and expires
`duration_minutes` minutes after its issue. -/
theorem remaining_minutes (xp : Int → Nat → List User → List User) (s : Store) (now : Int)
    (user : Claims) (body : PostBody) (err : String) (muteInfo : UserMute)
    (h : (postMessage xp s now user body).1 = ⟨403, .muted err muteInfo⟩) :
    ∃ remainingMinutes : Int,
      err = "Hesabınız " ++ toString remainingMinutes ++ " dakika boyunca susturuldu." ∧
      (remainingMinutes - 1) * 60000 < muteInfo.unmute_time - now ∧
      muteInfo.unmute_time - now ≤ remainingMinutes * 60000 ∧
      1 ≤ remainingMinutes ∧
      (muteInfo.mute_time ≤ now →
        muteInfo.unmute_time = muteInfo.mute_time + muteInfo.duration_minutes * 60000 →
        remainingMinutes ≤ muteInfo.duration_minutes) := by
  obtain ⟨hm, herr⟩ := postMessage_muted_inv xp s now user body err muteInfo h
  obtain ⟨_, _, _, hlt⟩ := muteCheck_some s now user.id muteInfo hm
  have hb := ceilDiv_bounds (muteInfo.unmute_time - now)
  refine ⟨ceilDiv (muteInfo.unmute_time - now) 60000, herr, hb.1, hb.2, ?_, ?_⟩
  · omega
  · intro h1 h2
    omega

/-- Witness of C25: a one-minute mute issued at 2000, post at 30000: one minute is reported.
-/
theorem remaining_minutes_witness :
    ∃ remainingMinutes : Int,
      "Hesabınız 1 dakika boyunca susturuldu." =
        "Hesabınız " ++ toString remainingMinutes ++ " dakika boyunca susturuldu." ∧
      (remainingMinutes - 1) * 60000 < (newMute 2000 (some 2) 1 1 62000).unmute_time - 30000 ∧
      (newMute 2000 (some 2) 1 1 62000).unmute_time - 30000 ≤ remainingMinutes * 60000 ∧
      1 ≤ remainingMinutes ∧
      ((newMute 2000 (some 2) 1 1 62000).mute_time ≤ 30000 →
        (newMute 2000 (some 2) 1 1 62000).unmute_time =
          (newMute 2000 (some 2) 1 1 62000).mute_time +
            (newMute 2000 (some 2) 1 1 62000).duration_minutes * 60000 →
        remainingMinutes ≤ (newMute 2000 (some 2) 1 1 62000).duration_minutes) :=
  remaining_minutes sampleXp mutedStore 30000 aliceClaims ⟨some "hi", none⟩
    "Hesabınız 1 dakika boyunca susturuldu." (newMute 2000 (some 2) 1 1 62000) (by decide)

/-- Claim C26: when the caller has an active ban or a mute in effect and the original
message exists (its author having a `Users` row), `POST /api/messages/quote` answers success
and appends a message authored by the caller, while `POST /api/messages` of the same caller
at the same time is answered 403. -/
theorem quote_ignores_blocks (xp : Int → Nat → List User → List User) (s : Store) (now : Int)
    (user : Claims) (body : QuoteBody)
    (hblocked : (∃ b ∈ s.bans, b.user_id = user.id ∧ b.is_active = true) ∨
      (∃ m ∈ s.mutes, m.user_id = some user.id ∧ m.is_active = true ∧ now < m.unmute_time))
    (horig : ∃ m ∈ s.messages, some m.id = body.originalMessageId ∧
      ∃ u ∈ s.users, u.id = m.user_id) :
    (quoteMessage s now user body).1 = ⟨200, .quoted s.nextMessageId⟩ ∧
    (quoteMessage s now user body).2.messages =
      s.messages ++ [newMessage s.nextMessageId now user.id body.newMessage "text"
        body.quotedText body.originalMessageId] ∧
    (postMessage xp s now user ⟨body.newMessage, none⟩).1.status = 403 := by
  rw [quoteMessage_found s now user body horig]
  refine ⟨rfl, rfl, ?_⟩
  apply (postMessage_blocked xp s now user _ _).1
  rcases hblocked with ⟨b, hb, hc⟩ | ⟨m, hm, hc⟩
  · left
    intro hnone
    exact (banCheck_eq_none s user.id).mp hnone b hb hc
  · right
    intro hnone
    exact (muteCheck_eq_none s now user.id).mp hnone m hm hc

/-- Witness of C26: the banned `alice` quotes message 1. -/
theorem quote_ignores_blocks_witness :
    (quoteMessage bannedStore 3000 aliceClaims ⟨some 1, some "hello", some "again"⟩).1 =
      ⟨200, .quoted bannedStore.nextMessageId⟩ ∧
    (quoteMessage bannedStore 3000 aliceClaims ⟨some 1, some "hello", some "again"⟩).2.messages =
      bannedStore.messages ++ [newMessage bannedStore.nextMessageId 3000 aliceClaims.id
        (some "again") "text" (some "hello") (some 1)] ∧
    (postMessage sampleXp bannedStore 3000 aliceClaims ⟨some "again", none⟩).1.status = 403 :=
  quote_ignores_blocks sampleXp bannedStore 3000 aliceClaims ⟨some 1, some "hello", some "again"⟩
    (Or.inl ⟨newBan 2000 2 1 (some "spam"), by decide, by decide⟩)
    ⟨newMessage 1 1000 2 (some "hello") "text" none none, by decide, by decide,
      sampleUser 2 "alice" false, by decide, by decide⟩

/-- Claim C27: for an admin caller and an id that no message has, `DELETE
/api/admin/messages/:id` answers success, keeps every existing message as it is and appends
the system message, so the table has one row more. -/
theorem admin_delete_missing (s : Store) (now messageId : Int) (user : Claims)
    (hadmin : user.is_admin = true) (hno : ∀ m ∈ s.messages, m.id ≠ messageId) :
    (adminDeleteMessage s now messageId user).1 = ⟨200, .message "Mesaj silindi"⟩ ∧
    (adminDeleteMessage s now messageId user).2.messages =
      s.messages ++ [newMessage s.nextMessageId now user.id
        (some "!System: Bir mesaj admin tarafından silindi!") "system" none none] ∧
    (adminDeleteMessage s now messageId user).2.messages.length = s.messages.length + 1 := by
  have hmap : s.messages.map (fun (m : Message) =>
      if m.id = messageId then
        { m with message := some "Deleted by admin!", is_edited := true, edited_at := some now }
      else m) = s.messages := by
    apply map_eq_self_of_forall
    intro m hm
    simp only [hno m hm, if_false]
  have hrun : (adminDeleteMessage s now messageId user).2.messages =
      s.messages ++ [newMessage s.nextMessageId now user.id
        (some "!System: Bir mesaj admin tarafından silindi!") "system" none none] := by
    simp only [adminDeleteMessage, hadmin, Bool.not_true, Bool.false_eq_true, if_false,
      Store.insertMessage, hmap]
  refine ⟨by simp [adminDeleteMessage, hadmin], hrun, ?_⟩
  rw [hrun]; simp

/-- Witness of C27: the sample admin deletes the missing message 9. -/
theorem admin_delete_missing_witness :
    (adminDeleteMessage sampleStore 5000 9 rootClaims).1 = ⟨200, .message "Mesaj silindi"⟩ ∧
    (adminDeleteMessage sampleStore 5000 9 rootClaims).2.messages =
      sampleStore.messages ++ [newMessage sampleStore.nextMessageId 5000 rootClaims.id
        (some "!System: Bir mesaj admin tarafından silindi!") "system" none none] ∧
    (adminDeleteMessage sampleStore 5000 9 rootClaims).2.messages.length =
      sampleStore.messages.length + 1 :=
  admin_delete_missing sampleStore 5000 9 rootClaims rfl (by decide)

/-- Claim C28, amended: the duration of `/mute` is 5 when `parseInt(params.duration)` is NaN
or 0 and the parsed value otherwise, negative values included, so it is never 0.  When the
duration lies outside the range of `sql.Int` the command fails with status 500 and no mute is
recorded.  When it lies inside the range and the issue time plus the duration in minutes is a
`datetime`, one mute of that duration is recorded; a negative duration gives it an
`unmute_time` before the issue time, so that the mute is in effect at no time from its issue
on. -/
theorem mute_duration_rule (s : Store) (now : Int) (admin : Claims) (params : CommandParams)
    (hadmin : admin.is_admin = true) :
    ∃ duration : Int,
      ((parseInt params.duration = none ∨ parseInt params.duration = some 0) →
        duration = 5) ∧
      (∀ d : Int, parseInt params.duration = some d → d ≠ 0 → duration = d) ∧
      duration ≠ 0 ∧
      ((duration < sqlIntMin ∨ sqlIntMax < duration) →
        adminCommand s now admin ⟨some "/mute", some params⟩ =
          (⟨500, .error "Komut işlenirken hata oluştu"⟩, s)) ∧
      (sqlIntMin ≤ duration → duration ≤ sqlIntMax →
        isDatetime (now + duration * 60000) = true →
        ∃ row : UserMute,
          (adminCommand s now admin ⟨some "/mute", some params⟩).2.mutes = s.mutes ++ [row] ∧
          row.duration_minutes = duration ∧
          row.mute_time = now ∧ row.is_active = true ∧
          row.unmute_time = now + row.duration_minutes * 60000 ∧
          (row.duration_minutes < 0 →
            row.unmute_time < row.mute_time ∧
            ∀ later : Int, now ≤ later → ¬ (later < row.unmute_time))) := by
  rw [adminCommand_mute s now admin params hadmin]
  refine ⟨muteDuration params, fun h => ?_, fun d hd hne => ?_, ?_, fun hout => ?_,
    fun hlo hhi _ => ?_⟩
  · rcases muteDuration_cases params with ⟨hp, hz⟩ | ⟨_, h5⟩
    · rcases h with h | h
      · rw [h] at hp; simp at hp
      · rw [h] at hp
        simp only [Option.some.injEq] at hp
        exact absurd hp.symm hz
    · exact h5
  · rcases muteDuration_cases params with ⟨hp, _⟩ | ⟨hp, _⟩
    · rw [hd] at hp
      simp only [Option.some.injEq] at hp
      exact hp.symm
    · rcases hp with hp | hp
      · rw [hd] at hp; simp at hp
      · rw [hd] at hp
        simp only [Option.some.injEq] at hp
        exact absurd hp hne
  · rcases muteDuration_cases params with ⟨_, hz⟩ | ⟨_, h5⟩
    · exact hz
    · rw [h5]; decide
  · rw [muteCommand_out_of_range s now admin params hout, commandError_validationFailed]
  · rw [muteCommand_mutes s now admin params hlo hhi]
    refine ⟨_, rfl, rfl, rfl, rfl, rfl, fun h => ?_⟩
    simp only [newMute] at h ⊢
    exact ⟨by omega, fun later hl => by omega⟩

/-- Witness of C28, amended: a mute of `-3` minutes, which lies inside the range of `sql.Int`
and expires at a `datetime`, so that the mute is recorded with its expiry before its issue. -/
theorem mute_duration_rule_witness :
    (∃ duration : Int,
      ((parseInt (some "-3") = none ∨ parseInt (some "-3") = some 0) → duration = 5) ∧
      (∀ d : Int, parseInt (some "-3") = some d → d ≠ 0 → duration = d) ∧
      duration ≠ 0 ∧
      ((duration < sqlIntMin ∨ sqlIntMax < duration) →
        adminCommand sampleStore 2000 rootClaims
          ⟨some "/mute", some { username := some "alice", duration := some "-3" }⟩ =
          (⟨500, .error "Komut işlenirken hata oluştu"⟩, sampleStore)) ∧
      (sqlIntMin ≤ duration → duration ≤ sqlIntMax →
        isDatetime (2000 + duration * 60000) = true →
        ∃ row : UserMute,
          (adminCommand sampleStore 2000 rootClaims
            ⟨some "/mute", some { username := some "alice", duration := some "-3" }⟩).2.mutes =
            sampleStore.mutes ++ [row] ∧
          row.duration_minutes = duration ∧
          row.mute_time = 2000 ∧ row.is_active = true ∧
          row.unmute_time = 2000 + row.duration_minutes * 60000 ∧
          (row.duration_minutes < 0 →
            row.unmute_time < row.mute_time ∧
            ∀ later : Int, (2000 : Int) ≤ later → ¬ (later < row.unmute_time)))) ∧
    (parseInt (some "-3") = some (-3) ∧ sqlIntMin ≤ -3 ∧ -3 ≤ sqlIntMax ∧
      isDatetime (2000 + -3 * 60000) = true ∧
      (adminCommand sampleStore 2000 rootClaims
        ⟨some "/mute", some { username := some "alice", duration := some "-3" }⟩).2.mutes =
        [newMute 2000 (some 2) 1 (-3) (-178000)]) :=
  ⟨mute_duration_rule sampleStore 2000 rootClaims
    { username := some "alice", duration := some "-3" } rfl, by decide⟩

/-- Counterexample to C28 as stated: the durations `99999999999` and `-99999999999` parse to
integers other than 0 that lie outside the range of `sql.Int`; the command fails with status
500 and records no mute, so neither value is the duration of a recorded mute and the negative
one yields no mute at all. -/
theorem mute_beyond_int_range_fails :
    parseInt (some "99999999999") = some 99999999999 ∧
    adminCommand sampleStore 2000 rootClaims
      ⟨some "/mute", some { username := some "alice", duration := some "99999999999" }⟩ =
      (⟨500, .error "Komut işlenirken hata oluştu"⟩, sampleStore) ∧
    parseInt (some "-99999999999") = some (-99999999999) ∧
    adminCommand sampleStore 2000 rootClaims
      ⟨some "/mute", some { username := some "alice", duration := some "-99999999999" }⟩ =
      (⟨500, .error "Komut işlenirken hata oluştu"⟩, sampleStore) ∧
    sampleStore.mutes = [] := by
  decide

/-- Claim C29: `determineTag` always answers: the constant `Unknown` tag with colour
`#000000` for a missing or empty list, a tag of the list for a non-empty one, which is a tag
with the smallest `required_level` when every tag asks for more than the level; a missing
level and every level below 1, zero included, are treated as level 1. -/
theorem tag_fallbacks (tags : Option (List Tag)) (userLevel : Option Int) :
    ((tags = none ∨ tags = some []) →
      determineTag tags userLevel = .unknown ∧
      (determineTag tags userLevel).name = "Unknown" ∧
      (determineTag tags userLevel).color_hex = "#000000") ∧
    (∀ list : List Tag, tags = some list → list ≠ [] →
      (∀ t ∈ list, effectiveLevel userLevel < t.required_level) →
      ∃ tag, determineTag tags userLevel = .listed tag ∧ tag ∈ list ∧
        ∀ t ∈ list, tag.required_level ≤ t.required_level) ∧
    determineTag tags none = determineTag tags (some 1) ∧
    (∀ level : Int, level < 1 → determineTag tags (some level) = determineTag tags (some 1)) ∧
    (∀ list : List Tag, tags = some list → list ≠ [] →
      ∃ tag, determineTag tags userLevel = .listed tag ∧ tag ∈ list) := by
  have hlevel : ∀ level : Int, level < 1 → effectiveLevel (some level) = effectiveLevel (some 1) := by
    intro level h
    have h1 : level = 0 ∨ level < 1 := Or.inr h
    simp [effectiveLevel, h1]
  have hsame : ∀ a b : Option Int, effectiveLevel a = effectiveLevel b →
      determineTag tags a = determineTag tags b := by
    intro a b hab
    unfold determineTag
    rw [hab]
  refine ⟨?_, ?_, hsame _ _ rfl, fun level h => hsame _ _ (hlevel level h), ?_⟩
  · rintro (rfl | rfl) <;> exact ⟨rfl, rfl, rfl⟩
  · rintro list rfl hne hall
    cases list with
    | nil => exact absurd rfl hne
    | cons t ts =>
      obtain ⟨first, rest, hs, hd⟩ := determineTag_cons t ts userLevel
      have hsorted := orderByAsc_sorted (fun tag : Tag => tag.required_level) (t :: ts)
      rw [hs] at hsorted
      have hstop : tagLoop (effectiveLevel userLevel) (first :: rest) first = first := by
        apply tagLoop_stop
        intro x hx
        apply hall x
        rw [← hs] at hx
        exact (orderByAsc_mem _ _ x).mp hx
      rw [hstop] at hd
      have hfirst : first ∈ t :: ts := by
        apply (orderByAsc_mem (fun tag : Tag => tag.required_level) _ first).mp
        rw [hs]; exact List.mem_cons_self _ _
      refine ⟨first, hd, hfirst, ?_⟩
      intro x hx
      have hx2 : x ∈ first :: rest := by
        rw [← hs]; exact (orderByAsc_mem _ _ x).mpr hx
      rcases List.mem_cons.mp hx2 with rfl | hmem
      · exact le_refl _
      · exact (List.pairwise_cons.mp hsorted).1 x hmem
  · rintro list rfl hne
    cases list with
    | nil => exact absurd rfl hne
    | cons t ts =>
      obtain ⟨first, rest, hs, hd⟩ := determineTag_cons t ts userLevel
      refine ⟨_, hd, ?_⟩
      have hmem : tagLoop (effectiveLevel userLevel) (first :: rest) first ∈ first :: rest := by
        have hgen : ∀ (l : List Tag) (acc : Tag), tagLoop (effectiveLevel userLevel) l acc = acc ∨
            tagLoop (effectiveLevel userLevel) l acc ∈ l := by
          intro l
          induction l with
          | nil => intro acc; exact Or.inl rfl
          | cons a l ih =>
            intro acc
            by_cases ha : effectiveLevel userLevel ≥ a.required_level
            · simp only [tagLoop, ha, if_true]
              rcases ih a with h | h
              · rw [h]; exact Or.inr (List.mem_cons_self _ _)
              · exact Or.inr (List.mem_cons_of_mem _ h)
            · simp only [tagLoop, ha, if_false]; exact Or.inl trivial
        rcases hgen (first :: rest) first with h | h
        · rw [h]; exact List.mem_cons_self _ _
        · exact h
      exact (orderByAsc_mem (fun tag : Tag => tag.required_level) (t :: ts) _).mp
        (by rw [hs]; exact hmem)

/-- Witness of C29: a missing tag list, and level 2 on tags that ask for 10 and 5. -/
theorem tag_fallbacks_witness :
    (determineTag none (some 3)).name = "Unknown" ∧
    (∃ tag, determineTag (some [⟨"Veteran", "#ff0000", 10⟩, ⟨"Regular", "#0000ff", 5⟩]) (some 2)
        = .listed tag ∧
      tag ∈ [(⟨"Veteran", "#ff0000", 10⟩ : Tag), ⟨"Regular", "#0000ff", 5⟩] ∧
      ∀ t ∈ [(⟨"Veteran", "#ff0000", 10⟩ : Tag), ⟨"Regular", "#0000ff", 5⟩],
        tag.required_level ≤ t.required_level) :=
  ⟨((tag_fallbacks none (some 3)).1 (Or.inl rfl)).2.1,
    (tag_fallbacks (some [⟨"Veteran", "#ff0000", 10⟩, ⟨"Regular", "#0000ff", 5⟩]) (some 2)).2.1
      _ rfl (by decide) (by decide)⟩


end UnityChat

namespace QRCodeGenerator

/-! ## The phone field -/

/-- The pattern does not match at a digit. -/
theorem groupAtHead_digit (c : Char) (cs : List Char) (h : c.isDigit = true) :
    groupAtHead (c :: cs) = none := by
  have hc : c ≠ '+' := by
    rintro rfl
    exact absurd h (by decide)
  unfold groupAtHead
  split
  · rename_i d heq
    simp only [List.cons.injEq] at heq
    exact absurd heq.1 hc
  · rfl

/-- A string of digits holds no match and is kept. -/
theorem groupDigits_digits (cs : List Char) (h : ∀ c ∈ cs, c.isDigit = true) :
    groupDigits cs = cs := by
  induction cs with
  | nil => rfl
  | cons c cs ih =>
    have hc := h c (List.mem_cons_self _ _)
    simp only [groupDigits, groupAtHead_digit c cs hc]
    rw [ih (fun x hx => h x (List.mem_cons_of_mem _ hx))]

/-- On `+90` followed by digits the replacement groups the first ten digits when there are
ten, and keeps the string otherwise. -/
theorem groupDigits_plus (r : List Char) (h : ∀ c ∈ r, c.isDigit = true) :
    groupDigits ('+' :: '9' :: '0' :: r) =
      if (r.take 10).length = 10 then
        ['+', '9', '0', ' '] ++ r.take 3 ++ [' '] ++ (r.drop 3).take 3 ++ [' ']
          ++ (r.drop 6).take 2 ++ [' '] ++ (r.drop 8).take 2 ++ r.drop 10
      else '+' :: '9' :: '0' :: r := by
  have hall : (r.take 10).all Char.isDigit = true := by
    rw [List.all_eq_true]
    intro c hc
    exact h c (List.mem_of_mem_take hc)
  by_cases hlen : (r.take 10).length = 10
  · simp only [groupDigits, groupAtHead, hlen, hall, and_self, if_true]
  · have hrest : groupDigits ('9' :: '0' :: r) = '9' :: '0' :: r := by
      apply groupDigits_digits
      intro c hc
      rcases List.mem_cons.mp hc with rfl | hc
      · decide
      · rcases List.mem_cons.mp hc with rfl | hc
        · decide
        · exact h c hc
    simp only [groupDigits, groupAtHead, hlen, false_and, if_false] at hrest ⊢
    rw [hrest]

/-- Removing the non-digits of a string of digits keeps it. -/
theorem filter_digits_self (r : List Char) (h : ∀ c ∈ r, c.isDigit = true) :
    r.filter Char.isDigit = r :=
  List.filter_eq_self.mpr h

/-- The four groups and the rest make up the digits again. -/
theorem regroup (r : List Char) :
    r.take 3 ++ ((r.drop 3).take 3 ++ ((r.drop 6).take 2 ++ ((r.drop 8).take 2 ++ r.drop 10)))
      = r := by
  have h1 : (r.drop 8).take 2 ++ r.drop 10 = r.drop 8 := by
    have := List.take_append_drop 2 (r.drop 8)
    rw [List.drop_drop] at this
    exact this
  have h2 : (r.drop 6).take 2 ++ r.drop 8 = r.drop 6 := by
    have := List.take_append_drop 2 (r.drop 6)
    rw [List.drop_drop] at this
    exact this
  have h3 : (r.drop 3).take 3 ++ r.drop 6 = r.drop 3 := by
    have := List.take_append_drop 3 (r.drop 3)
    rw [List.drop_drop] at this
    exact this
  rw [h1, h2, h3, List.take_append_drop]

/-- The digits of the grouped value are `90` followed by the digits after the prefix. -/
theorem digits_of_grouped (r : List Char) (h : ∀ c ∈ r, c.isDigit = true) :
    (groupDigits ('+' :: '9' :: '0' :: r)).filter Char.isDigit = '9' :: '0' :: r := by
  rw [groupDigits_plus r h]
  have hsub : ∀ (n : Nat) (l : List Char), (∀ c ∈ l, c.isDigit = true) →
      (l.take n).filter Char.isDigit = l.take n := by
    intro n l hl
    exact filter_digits_self _ (fun c hc => hl c (List.mem_of_mem_take hc))
  have hdrop : ∀ (n : Nat), ∀ c ∈ r.drop n, c.isDigit = true :=
    fun n c hc => h c (List.mem_of_mem_drop hc)
  have hplus : Char.isDigit '+' = false := by decide
  have h9 : Char.isDigit '9' = true := by decide
  have h0 : Char.isDigit '0' = true := by decide
  have hsp : Char.isDigit ' ' = false := by decide
  by_cases hlen : (r.take 10).length = 10
  · simp only [hlen, if_true, List.filter_append, List.filter_cons, List.filter_nil, hplus, h9,
      h0, hsp, hsub 3 r h, hsub 3 (r.drop 3) (hdrop 3), hsub 2 (r.drop 6) (hdrop 6),
      hsub 2 (r.drop 8) (hdrop 8), filter_digits_self (r.drop 10) (hdrop 10),
      Bool.false_eq_true, if_false, List.nil_append, List.append_nil, List.cons_append,
      List.append_assoc]
    rw [regroup r]
  · simp only [hlen, if_false, List.filter_cons, hplus, h9, h0, Bool.false_eq_true, if_true,
      filter_digits_self r h]

/-- On digits the prefix step gives `+90` followed by digits. -/
theorem countryPrefix_digits (d : List Char) (h : ∀ c ∈ d, c.isDigit = true) :
    ∃ r, countryPrefix d = '+' :: '9' :: '0' :: r ∧ ∀ c ∈ r, c.isDigit = true := by
  unfold countryPrefix
  split
  · exact ⟨_, rfl, fun c hc => h c (List.mem_cons_of_mem _ (List.mem_cons_of_mem _ hc))⟩
  · exact ⟨_, rfl, fun c hc => h c (List.mem_cons_of_mem _ hc)⟩
  · exact absurd (h '+' (List.mem_cons_self _ _)) (by decide)
  · exact ⟨d, rfl, h⟩

/-- Every formatted value is the grouping of `+90` followed by digits. -/
theorem formatPhoneChars_shape (value : List Char) :
    ∃ r, (∀ c ∈ r, c.isDigit = true) ∧
      formatPhoneChars value = groupDigits ('+' :: '9' :: '0' :: r) := by
  obtain ⟨r, hr, hd⟩ := countryPrefix_digits (value.filter Char.isDigit)
    (fun c hc => (List.mem_filter.mp hc).2)
  exact ⟨r, hd, by unfold formatPhoneChars; rw [hr]⟩

/-- Formatting a formatted value gives it back. -/
theorem formatPhoneChars_idem (value : List Char) :
    formatPhoneChars (formatPhoneChars value) = formatPhoneChars value := by
  obtain ⟨r, hr, hf⟩ := formatPhoneChars_shape value
  rw [hf]
  unfold formatPhoneChars
  rw [digits_of_grouped r hr]
  rfl

/-- A formatted value starts with `+90`. -/
theorem formatPhoneChars_starts (value : List Char) :
    (formatPhoneChars value).take 3 = ['+', '9', '0'] := by
  obtain ⟨r, hr, hf⟩ := formatPhoneChars_shape value
  rw [hf, groupDigits_plus r hr]
  split <;> rfl

/-! ## Claims -/

/-- Claim C30: formatting the value that `formatPhoneNumber` wrote gives the same value
again, for every input; the value always starts with `+90`; and the ten digits `5551234567`
are formatted as `+90 555 123 45 67`. -/
theorem formatPhoneNumber_idempotent (value : String) :
    formatPhoneNumber (formatPhoneNumber value) = formatPhoneNumber value ∧
    (formatPhoneNumber value).toList.take 3 = ['+', '9', '0'] ∧
    (∃ rest : String, formatPhoneNumber value = "+90" ++ rest) ∧
    formatPhoneNumber "5551234567" = "+90 555 123 45 67" := by
  refine ⟨?_, ?_, ?_, by decide⟩
  · show String.mk (formatPhoneChars (formatPhoneChars value.toList)) = _
    rw [formatPhoneChars_idem]
    rfl
  · unfold formatPhoneNumber
    exact formatPhoneChars_starts value.toList
  · refine ⟨String.mk ((formatPhoneChars value.toList).drop 3), ?_⟩
    unfold formatPhoneNumber
    apply String.ext
    have h := formatPhoneChars_starts value.toList
    have h2 := List.take_append_drop 3 (formatPhoneChars value.toList)
    rw [h] at h2
    simp only [String.data_append]
    exact h2.symm


/-- Witness of C30: a number typed with a leading zero and spaces. -/
theorem formatPhoneNumber_idempotent_witness :
    formatPhoneNumber (formatPhoneNumber "0555 123 45 67") = formatPhoneNumber "0555 123 45 67" :=
  (formatPhoneNumber_idempotent "0555 123 45 67").1

end QRCodeGenerator
